import Mathlib

/-!
Verification of the season-scheduling engine (`core/py/scheduler.py`,
`core/py/game.py`) against its natural-language specification.

Modelling conventions of this shallow embedding:
* All times are measured in half-hour units as integers: the Python value
  `8.0` (hours) is the integer `16`, a 2-hour game is `4` units.  The spec
  quantizes every start time to half hours, so this embedding is exact on
  the quantized domain; `start=9.0, end=11.0` becomes `start = 18, stop = 22`.
* `week` is an `Int` (Python iterates `range(season_start, season_end + 1)`).
* `day` is a `Nat` in `1..7`.
* Weekly availability is a pair of total functions `Nat -> Int`; the Python
  `row.get("d{day}Start", 0)` / `row.get("d{day}End", 24)` defaulting is
  applied when an input value is constructed.
* The Python dictionaries `team_trees` / `venue_trees` are total functions
  from keys to interval trees; keys never touched stay at the empty tree.
* The interval-tree module `core/py/interval_tree.py` is not part of the
  provided sources; it is modelled from the spec (section 4.1) below.
-/

namespace Sched

/-- One booked interval: `(start, stop)` in half-hour units on a given
`(week, day)` bucket.  Mirrors `Interval(start, end, day, week)` from the
source (the Python field `end` is called `stop` here, `end` being a Lean
keyword). -/
structure Interval where
  start : Int
  stop : Int
  day : Nat
  week : Int
deriving DecidableEq, Repr

/-- Two intervals conflict iff they are in the same `(week, day)` bucket and
their half-open ranges `[start, stop)` intersect numerically. -/
def overlapP (i j : Interval) : Prop :=
  i.week = j.week ∧ i.day = j.day ∧ i.start < j.stop ∧ j.start < i.stop

instance (i j : Interval) : Decidable (overlapP i j) := by
  unfold overlapP; infer_instance

/-- Modelled from the spec: `core/py/interval_tree.py` is missing from the
sources, so the Conflict Index is taken from spec section 4.1: a per-resource
set of booked intervals.  The ordered-tree internals are a performance
detail; the observable behaviour is the booked set, modelled as a list. -/
def IntervalTree : Type := List Interval

/-- Modelled from the spec: the empty Conflict Index (`IntervalTree()`). -/
def IntervalTree.empty : IntervalTree := []

/-- Modelled from the spec: `overlap(interval)` is true iff any stored
interval sharing the same `(week, day)` numerically overlaps the query's
`[start, stop)` range. -/
def IntervalTree.overlap (t : IntervalTree) (i : Interval) : Bool :=
  List.any t fun j => decide (overlapP i j)

/-- Modelled from the spec: `insert(interval)` adds the interval to the
booked set; the caller guarantees no overlap, and no re-validation is done. -/
def IntervalTree.insert (t : IntervalTree) (i : Interval) : IntervalTree :=
  i :: t

/-- A team row: `{teamId, name, leagueId, d1Start..d7End}` with the
`0` / `24`-hour defaults already applied to `availStart` / `availEnd`. -/
structure Team where
  teamId : Nat
  name : String
  leagueId : Nat
  availStart : Nat → Int
  availEnd : Nat → Int

/-- A venue-field row: `{venueId, field, name, d1Start..d7End}`. -/
structure Venue where
  venueId : Nat
  field : Nat
  name : String
  availStart : Nat → Int
  availEnd : Nat → Int

/-- A league row.  `seasonYear?` is `none` when neither the `seasonYear` nor
the `season` column is present (the code then skips the league). -/
structure League where
  leagueId : Nat
  leagueName : String
  seasonStart : Int
  seasonEnd : Int
  numberOfGames : Nat
  seasonYear? : Option Int
deriving DecidableEq, Repr

/-- A committed game, mirroring `core/py/game.py` and the record written to
the schedule output. -/
structure Game where
  team1Id : Nat
  team2Id : Nat
  team1Name : String
  team2Name : String
  week : Int
  day : Nat
  season : Int
  start : Int
  stop : Int
  league : String
  venue_name : String
deriving DecidableEq, Repr

/-- Instrumentation of the run: one event per scheduling attempt, in program
order.  `attempt` is an initial-pass attempt of a pair for a league;
`backfillAttempt` is a retry inside the verification loop, recording the
outer league being processed, the league whose deficit triggered the retry,
and the season window actually searched. -/
inductive Event where
  | attempt (leagueId : Nat) (t1 t2 : Nat)
  | backfillAttempt (outerLeagueId checkedLeagueId : Nat) (t1 t2 : Nat)
      (seasonStart seasonEnd : Int)
deriving DecidableEq, Repr

/-- The mutable state threaded through `Scheduler.run`: the per-team and
per-venue-field Conflict Indices, the accumulated `all_scheduled_games`,
and the attempt trace. -/
structure SchedState where
  teamTrees : Nat → IntervalTree
  venueTrees : Nat × Nat → IntervalTree
  games : List Game
  events : List Event

/-- Pointwise update of a keyed family of values (a Python dict write). -/
def upd {α β : Type} [DecidableEq α] (f : α → β) (k : α) (v : β) : α → β :=
  fun x => if x = k then v else f x

/-- The state before any league is processed: all Conflict Indices empty. -/
def initState : SchedState :=
  { teamTrees := fun _ => IntervalTree.empty
    venueTrees := fun _ => IntervalTree.empty
    games := []
    events := [] }

/-- `range(a, b + 1)` over integers, in ascending order. -/
def intRange (a b : Int) : List Int :=
  (List.range (b + 1 - a).toNat).map fun (k : Nat) => a + (k : Int)

/-- Candidate start times for an intersected window `[ds, de)` (half-hour
units): the Python `[x * 0.5 for x in range(int(day_start * 2),
int((day_end - 2) * 2) + 1)]`, which is `[ds, ds + 1, ..., de - 4]`. -/
def potentialStarts (ds de : Int) : List Int :=
  (List.range (de - ds - 3).toNat).map fun (k : Nat) => ds + (k : Int)

/-- `itertools.combinations(teamIds, 2)`: all pairs `(l[i], l[j])` with
`i < j`, in the input order of the list. -/
def combos : List Nat → List (Nat × Nat)
  | [] => []
  | x :: xs => (xs.map fun y => (x, y)) ++ combos xs

/-- `required_total_games = numberOfGames * numberOfTeams // 2`. -/
def requiredTotal (g n : Nat) : Nat := g * n / 2

/-- The ordered list of pair instances a league attempts to schedule:
each pair of `combos` repeated `games_per_pair` times consecutively, then
one extra instance of each of the first `extra_games` pairs. -/
def gamePairsOf (teamIds : List Nat) (g : Nat) : List (Nat × Nat) :=
  let possiblePairs := combos teamIds
  let req := requiredTotal g teamIds.length
  let base := req / possiblePairs.length
  let extra := req % possiblePairs.length
  (possiblePairs.flatMap fun p => List.replicate base p) ++ possiblePairs.take extra

/-- The `team_names` dictionary: `set_index('teamId')['name'].to_dict()`
keeps the last row for a duplicated id. -/
def teamNameOf (leagueTeams : List Team) (tid : Nat) : String :=
  match (leagueTeams.filter fun t => t.teamId == tid).getLast? with
  | some t => t.name
  | none => ""

/-- A venue-field accepts a candidate `[s, s + 4)` on `(week, day)` iff the
candidate lies inside the venue's availability window for that day and the
venue-field's Conflict Index reports no overlap. -/
def venuePasses (vt : Nat × Nat → IntervalTree) (v : Venue) (week : Int)
    (day : Nat) (s : Int) : Bool :=
  !(decide (s < v.availStart day) || decide (s + 4 > v.availEnd day)) &&
    !(vt (v.venueId, v.field)).overlap ⟨s, s + 4, day, week⟩

/-- The venue loop: scan `venue_df` rows in input order and return the first
venue-field that passes both checks. -/
def findVenueSlot (vt : Nat × Nat → IntervalTree) (venues : List Venue)
    (week : Int) (day : Nat) (s : Int) : Option Venue :=
  venues.find? fun v => venuePasses vt v week day s

/-- The slot search for one pair: weeks ascending over the given season
window, days `1..7`, candidate starts ascending over the intersected
availability window, first venue-field that fits.  Returns the committed
`(week, day, start, venue)` of the first fully conflict-free assignment. -/
def searchSlot (tt : Nat → IntervalTree) (vt : Nat × Nat → IntervalTree)
    (venues : List Venue) (t1 t2 : Team) (t1id t2id : Nat)
    (seasonStart seasonEnd : Int) : Option (Int × Nat × Int × Venue) :=
  (intRange seasonStart seasonEnd).findSome? fun week =>
    (List.range' 1 7).findSome? fun day =>
      if min (t1.availEnd day) (t2.availEnd day) -
          max (t1.availStart day) (t2.availStart day) < 4 then none
      else
        (potentialStarts (max (t1.availStart day) (t2.availStart day))
            (min (t1.availEnd day) (t2.availEnd day))).findSome? fun s =>
          if (tt t1id).overlap ⟨s, s + 4, day, week⟩ ||
              (tt t2id).overlap ⟨s, s + 4, day, week⟩ then none
          else (findVenueSlot vt venues week day s).map fun v => (week, day, s, v)

/-- Commit an accepted assignment: insert the interval into both teams' and
the venue-field's Conflict Indices (in the source's order: team 1, team 2,
venue) and append the `Game` record. -/
def commitGame (st : SchedState) (t1id t2id : Nat) (t1n t2n : String)
    (week : Int) (day : Nat) (s : Int) (seasonYear : Int)
    (leagueName : String) (v : Venue) : SchedState :=
  let iv : Interval := ⟨s, s + 4, day, week⟩
  let tt1 := upd st.teamTrees t1id ((st.teamTrees t1id).insert iv)
  let tt2 := upd tt1 t2id ((tt1 t2id).insert iv)
  { st with
    teamTrees := tt2
    venueTrees := upd st.venueTrees (v.venueId, v.field)
      ((st.venueTrees (v.venueId, v.field)).insert iv)
    games := st.games ++
      [{ team1Id := t1id, team2Id := t2id, team1Name := t1n, team2Name := t2n
         week := week, day := day, season := seasonYear, start := s
         stop := s + 4, league := leagueName
         venue_name := v.name ++ " Field #" ++ toString v.field }] }

/-- One scheduling attempt for one pair: record the attempt event, resolve
the two team rows through `lookup`, search, and commit on success.
Returns the new state and whether the pair was scheduled. -/
def attemptPair (st : SchedState) (venues : List Venue)
    (lookup : Nat → Option Team) (names : Nat → String) (t1id t2id : Nat)
    (seasonStart seasonEnd : Int) (seasonYear : Int) (leagueName : String)
    (ev : Event) : SchedState × Bool :=
  let st1 := { st with events := st.events ++ [ev] }
  match lookup t1id, lookup t2id with
  | some t1, some t2 =>
    match searchSlot st1.teamTrees st1.venueTrees venues t1 t2 t1id t2id
        seasonStart seasonEnd with
    | some (week, day, s, v) =>
      (commitGame st1 t1id t2id (names t1id) (names t2id) week day s
        seasonYear leagueName v, true)
    | none => (st1, false)
  | _, _ => (st1, false)

/-- The initial pass over a league's `game_pairs`: attempt each pair in
order; pairs that fail are collected (in order) as `unscheduled_pairs`.
Team rows are looked up in the league-filtered team list. -/
def initialPass (venues : List Venue) (lookup : Nat → Option Team)
    (names : Nat → String) (lid : Nat) (seasonStart seasonEnd : Int)
    (seasonYear : Int) (leagueName : String) :
    SchedState → List (Nat × Nat) → SchedState × List (Nat × Nat)
  | st, [] => (st, [])
  | st, p :: rest =>
    let r := attemptPair st venues lookup names p.1 p.2 seasonStart seasonEnd
      seasonYear leagueName (.attempt lid p.1 p.2)
    let r2 := initialPass venues lookup names lid seasonStart seasonEnd
      seasonYear leagueName r.1 rest
    (r2.1, if r.2 then r2.2 else p :: r2.2)

/-- The backfill retry loop for one checked league: re-attempt each pair
over the *outer* league's season window, resolving team rows in the full
`team_df` (first row with the id), attributing any success to the *checked*
league's name. -/
def backfillPairs (teams : List Team) (venues : List Venue)
    (names : Nat → String) (outerLid checkedLid : Nat)
    (seasonStart seasonEnd : Int) (seasonYear : Int) (checkedName : String) :
    SchedState → List (Nat × Nat) → SchedState
  | st, [] => st
  | st, p :: rest =>
    let r := attemptPair st venues
      (fun tid => teams.find? fun t => t.teamId == tid) names p.1 p.2
      seasonStart seasonEnd seasonYear checkedName
      (.backfillAttempt outerLid checkedLid p.1 p.2 seasonStart seasonEnd)
    backfillPairs teams venues names outerLid checkedLid seasonStart seasonEnd
      seasonYear checkedName r.1 rest

/-- The verification loop that the source nests *inside* the outer league
loop: after the outer league `l`'s initial pass, iterate over *all* league
rows; for each league short of its required total, re-run the search for
the outer league's unscheduled pairs (filtered to the outer league's team
ids), attributing successes to the checked league's name. -/
def verificationLoop (teams : List Team) (venues : List Venue) (l : League)
    (teamIds : List Nat) (names : Nat → String) (seasonYear : Int)
    (unscheduled : List (Nat × Nat)) :
    SchedState → List League → SchedState
  | st, [] => st
  | st, m :: rest =>
    let nM := (teams.filter fun t => t.leagueId == m.leagueId).length
    let reqM := requiredTotal m.numberOfGames nM
    let cnt := (st.games.filter fun g => g.league == m.leagueName).length
    let st' :=
      if cnt < reqM then
        backfillPairs teams venues names l.leagueId m.leagueId l.seasonStart
          l.seasonEnd seasonYear m.leagueName st
          (unscheduled.filter fun p =>
            teamIds.contains p.1 && teamIds.contains p.2)
      else st
    verificationLoop teams venues l teamIds names seasonYear unscheduled st' rest

/-- One outer-loop iteration of `Scheduler.run` for league `l`: skip when the
season label is missing or the league has fewer than two teams or no pairs;
otherwise run the initial pass over `gamePairsOf` and then the nested
verification loop over all leagues. -/
def processLeague (teams : List Team) (venues : List Venue)
    (leagues : List League) (st : SchedState) (l : League) : SchedState :=
  match l.seasonYear? with
  | none => st
  | some yr =>
    let leagueTeams := teams.filter fun t => t.leagueId == l.leagueId
    let teamIds := leagueTeams.map fun t => t.teamId
    if teamIds.length < 2 then st
    else if (combos teamIds).length = 0 then st
    else
      let names := teamNameOf leagueTeams
      let lookup := fun tid => leagueTeams.find? fun t => t.teamId == tid
      let r := initialPass venues lookup names l.leagueId l.seasonStart
        l.seasonEnd yr l.leagueName st (gamePairsOf teamIds l.numberOfGames)
      verificationLoop teams venues l teamIds names yr r.2 r.1 leagues

namespace Scheduler

/-- The scheduling engine `Scheduler.run` on already-read input records:
process the leagues in input order, threading the shared Conflict Indices
and the accumulated game list. -/
def run (teams : List Team) (venues : List Venue) (leagues : List League) :
    SchedState :=
  leagues.foldl (processLeague teams venues leagues) initState

/-- The whole entry point including input reading, modelled shallowly:
`none` stands for a failed read of one of the three CSV files (the
`except` branch), `some` for readable input.  Returns the exit code and the
schedule output written (if any). -/
def runFromRead (input? : Option (List Team × List Venue × List League)) :
    Int × Option SchedState :=
  match input? with
  | none => (1, none)
  | some (t, v, l) => (0, some (run t v l))

end Scheduler

/-! Scenario A input, as in `src/test.py`: two teams with day-1 windows
`[8,16)` and `[9,17)`, one venue-field `[8,18)` on day 1, season weeks 1-2,
`numberOfGames = 2`.  Days 2..7 take the `[0,24)` default. -/

/-- Scenario A team rows. -/
def teamsA : List Team :=
  [{ teamId := 1, name := "Team A", leagueId := 1
     availStart := fun d => if d = 1 then 16 else 0
     availEnd := fun d => if d = 1 then 32 else 48 },
   { teamId := 2, name := "Team B", leagueId := 1
     availStart := fun d => if d = 1 then 18 else 0
     availEnd := fun d => if d = 1 then 34 else 48 }]

/-- Scenario A venue rows. -/
def venuesA : List Venue :=
  [{ venueId := 1, field := 1, name := "Venue 1"
     availStart := fun d => if d = 1 then 16 else 0
     availEnd := fun d => if d = 1 then 36 else 48 }]

/-- Scenario A league rows. -/
def leaguesA : List League :=
  [{ leagueId := 1, leagueName := "League 1", seasonStart := 1, seasonEnd := 2
     numberOfGames := 2, seasonYear? := some 2024 }]

/-- C2: Scenario A schedules exactly two games, both on week 1 day 1, the
first at `start = 9.0, end = 11.0` (half-hour units: `18` to `22`) and the
second at `start = 11.0, end = 13.0` (`22` to `26`). -/
theorem C2_scenarioA :
    (Scheduler.run teamsA venuesA leaguesA).games.map
      (fun g => (g.week, g.day, g.start, g.stop)) =
    [(1, 1, 18, 22), (1, 1, 22, 26)] := by
  decide

/-! Spec-side checkers: each one formalizes a sentence of the spec as a
decidable predicate over the run's result, to be compared with the code's
behaviour. -/

/-- No two intervals of the list overlap (pairwise), as a boolean. -/
def pnoB : List Interval → Bool
  | [] => true
  | i :: rest => (rest.all fun j => !decide (overlapP i j)) && pnoB rest

/-- The spec's no-overlap invariant over every resource of the input: every
team's and every venue-field's Conflict Index holds pairwise
non-overlapping intervals. -/
def noOverlapInvB (teams : List Team) (venues : List Venue)
    (st : SchedState) : Bool :=
  ((teams.map fun t => t.teamId).all fun tid => pnoB (st.teamTrees tid)) &&
    (venues.all fun v => pnoB (st.venueTrees (v.venueId, v.field)))

/-- The spec's capacity bound: for every league, the number of scheduled
games attributed to it is at most its `requiredTotal`. -/
def specCapacityBound (teams : List Team) (leagues : List League)
    (st : SchedState) : Bool :=
  leagues.all fun lg =>
    decide ((st.games.filter fun g => g.league == lg.leagueName).length ≤
      requiredTotal lg.numberOfGames
        (teams.filter fun t => t.leagueId == lg.leagueId).length)

/-- The spec's season-window invariant: every scheduled game's week lies in
the `[seasonStart, seasonEnd]` window of the league it is attributed to
(by league name) in the output record. -/
def specSeasonWindow (leagues : List League) (st : SchedState) : Bool :=
  st.games.all fun g => leagues.all fun m =>
    !(m.leagueName == g.league) ||
      (decide (m.seasonStart ≤ g.week) && decide (g.week ≤ m.seasonEnd))

/-- Event classifier: initial-pass attempts. -/
def isInitialAttempt : Event → Bool
  | .attempt _ _ _ => true
  | _ => false

/-- Event classifier: backfill attempts. -/
def isBackfill : Event → Bool
  | .backfillAttempt _ _ _ _ _ _ => true
  | _ => false

/-- The team ids of a league, in team-file order. -/
def teamIdsOfLeague (teams : List Team) (lid : Nat) : List Nat :=
  (teams.filter fun t => t.leagueId == lid).map fun t => t.teamId

/-- No initial-pass attempt occurs after any backfill attempt in the trace. -/
def noInitialAfterBackfill : List Event → Bool
  | [] => true
  | e :: rest =>
    (!isBackfill e || rest.all fun e2 => !isInitialAttempt e2) &&
      noInitialAfterBackfill rest

/-- The spec's description of the backfill pass, as a trace predicate: the
backfill runs only after every league's initial pass has completed, and each
backfill attempt retries a pair of the *checked* league's own teams over the
*checked* league's season horizon. -/
def specC5holds (teams : List Team) (leagues : List League)
    (st : SchedState) : Bool :=
  noInitialAfterBackfill st.events &&
    st.events.all fun e =>
      match e with
      | .attempt _ _ _ => true
      | .backfillAttempt _ c t1 t2 s1 s2 =>
        (teamIdsOfLeague teams c).contains t1 &&
          (teamIdsOfLeague teams c).contains t2 &&
          leagues.all fun m =>
            !(m.leagueId == c) ||
              (decide (s1 = m.seasonStart) && decide (s2 = m.seasonEnd))

/-- The spec's pairing order: all unique unordered pairs over the
*deduplicated, ascending-sorted* team ids, sorted ascending by
`(first id, second id)`. -/
def specAllPairs (teamIds : List Nat) : List (Nat × Nat) :=
  let ids := (teamIds.dedup).insertionSort (· ≤ ·)
  ids.flatMap fun a => ids.filterMap fun b => if a < b then some (a, b) else none

/-- The spec's pairing sequence: each spec-ordered pair `base` times
consecutively, then one extra instance of each of the first `extra` pairs. -/
def specGamePairs (teamIds : List Nat) (g : Nat) : List (Nat × Nat) :=
  let ps := specAllPairs teamIds
  let req := requiredTotal g teamIds.length
  (ps.flatMap fun p => List.replicate (req / ps.length) p) ++
    ps.take (req % ps.length)

/-- Project an initial-pass attempt event to its pair. -/
def initPairOf : Event → Option (Nat × Nat)
  | .attempt _ a b => some (a, b)
  | _ => none

/-- Normalize an unordered pair to `(min, max)` representation. -/
def normPair (p : Nat × Nat) : Nat × Nat := (min p.1 p.2, max p.1 p.2)

/-- Ascending order on venue-fields by `(venue identifier, field number)`,
as the spec prescribes for the venue scan. -/
def venueFieldLE (a b : Venue) : Prop :=
  a.venueId < b.venueId ∨ (a.venueId = b.venueId ∧ a.field ≤ b.field)

instance : DecidableRel venueFieldLE := fun a b => by
  unfold venueFieldLE; infer_instance

/-- The spec's venue choice: first venue-field in ascending
`(venue identifier, field number)` order that passes both checks. -/
def specAscVenueFirst (vt : Nat × Nat → IntervalTree) (venues : List Venue)
    (week : Int) (day : Nat) (s : Int) : Option Venue :=
  (venues.insertionSort venueFieldLE).find? fun v => venuePasses vt v week day s

/-! Concrete inputs exhibiting divergences between code and spec. -/

/-- A league whose team list contains the same team id twice (rows with
duplicate `teamId` are legal CSV input). -/
def teamsC1 : List Team :=
  [{ teamId := 1, name := "Dup A", leagueId := 1
     availStart := fun _ => 16, availEnd := fun _ => 48 },
   { teamId := 1, name := "Dup B", leagueId := 1
     availStart := fun _ => 16, availEnd := fun _ => 48 }]

/-- One wide-open venue-field. -/
def venuesC1 : List Venue :=
  [{ venueId := 1, field := 1, name := "V"
     availStart := fun _ => 0, availEnd := fun _ => 48 }]

/-- One league over the duplicated team rows. -/
def leaguesC1 : List League :=
  [{ leagueId := 1, leagueName := "LD", seasonStart := 1, seasonEnd := 1
     numberOfGames := 1, seasonYear? := some 5 }]

/-- Teams listed in non-ascending id order `[2, 1, 3]`. -/
def teamsC3 : List Team :=
  [{ teamId := 2, name := "T2", leagueId := 1
     availStart := fun _ => 16, availEnd := fun _ => 48 },
   { teamId := 1, name := "T1", leagueId := 1
     availStart := fun _ => 16, availEnd := fun _ => 48 },
   { teamId := 3, name := "T3", leagueId := 1
     availStart := fun _ => 16, availEnd := fun _ => 48 }]

/-- No venues at all (attempts are recorded regardless). -/
def venuesC3 : List Venue := []

/-- One league, two games per team. -/
def leaguesC3 : List League :=
  [{ leagueId := 1, leagueName := "LC", seasonStart := 1, seasonEnd := 1
     numberOfGames := 2, seasonYear? := some 9 }]

/-- Team rows where id `5` appears in league 2 (wide availability, first
row) and again in league 1 (empty availability): the initial pass resolves
the league-filtered row, the backfill resolves the first `team_df` row. -/
def teamsC4 : List Team :=
  [{ teamId := 5, name := "P wide", leagueId := 2
     availStart := fun _ => 16, availEnd := fun _ => 48 },
   { teamId := 5, name := "P empty", leagueId := 1
     availStart := fun _ => 0, availEnd := fun _ => 0 },
   { teamId := 6, name := "Q", leagueId := 1
     availStart := fun _ => 16, availEnd := fun _ => 48 }]

/-- One wide-open venue-field. -/
def venuesC4 : List Venue :=
  [{ venueId := 1, field := 1, name := "V"
     availStart := fun _ => 0, availEnd := fun _ => 48 }]

/-- Two leagues: league 1 needs two games in week 1; league 2 (one team,
required total 1, season weeks 10-10) never runs an initial pass of its
own but is checked by league 1's verification loop. -/
def leaguesC4 : List League :=
  [{ leagueId := 1, leagueName := "L1", seasonStart := 1, seasonEnd := 1
     numberOfGames := 2, seasonYear? := some 2024 },
   { leagueId := 2, leagueName := "L2", seasonStart := 10, seasonEnd := 10
     numberOfGames := 2, seasonYear? := some 2024 }]

/-- Two leagues of two teams each; league 1's teams have empty availability
so league 1's pair stays unscheduled, league 2's teams are wide open. -/
def teamsC5 : List Team :=
  [{ teamId := 1, name := "A", leagueId := 1
     availStart := fun _ => 0, availEnd := fun _ => 0 },
   { teamId := 2, name := "B", leagueId := 1
     availStart := fun _ => 0, availEnd := fun _ => 0 },
   { teamId := 3, name := "C", leagueId := 2
     availStart := fun _ => 16, availEnd := fun _ => 48 },
   { teamId := 4, name := "D", leagueId := 2
     availStart := fun _ => 16, availEnd := fun _ => 48 }]

/-- One wide-open venue-field. -/
def venuesC5 : List Venue :=
  [{ venueId := 1, field := 1, name := "V"
     availStart := fun _ => 0, availEnd := fun _ => 48 }]

/-- The first league of the C5 input. -/
def leagueC5A : League :=
  { leagueId := 1, leagueName := "LA", seasonStart := 1, seasonEnd := 1
    numberOfGames := 1, seasonYear? := some 2024 }

/-- The second league of the C5 input. -/
def leagueC5B : League :=
  { leagueId := 2, leagueName := "LB", seasonStart := 1, seasonEnd := 1
    numberOfGames := 1, seasonYear? := some 2024 }

/-- Two leagues in input order: league 1 first, league 2 second. -/
def leaguesC5 : List League := [leagueC5A, leagueC5B]

/-- A wide-open team. -/
def teamA7 : Team :=
  { teamId := 1, name := "A", leagueId := 1
    availStart := fun _ => 16, availEnd := fun _ => 48 }

/-- A second wide-open team. -/
def teamB7 : Team :=
  { teamId := 2, name := "B", leagueId := 1
    availStart := fun _ => 16, availEnd := fun _ => 48 }

/-- Two wide-open teams. -/
def teamsC7 : List Team := [teamA7, teamB7]

/-- A wide-open venue-field with the larger venue id. -/
def venueB7 : Venue :=
  { venueId := 2, field := 1, name := "VB"
    availStart := fun _ => 0, availEnd := fun _ => 48 }

/-- A wide-open venue-field with the smaller venue id. -/
def venueA7 : Venue :=
  { venueId := 1, field := 1, name := "VA"
    availStart := fun _ => 0, availEnd := fun _ => 48 }

/-- Two venue-fields, both always available, listed with the *larger*
venue id first. -/
def venuesC7 : List Venue := [venueB7, venueA7]

/-- One league, one game. -/
def leaguesC7 : List League :=
  [{ leagueId := 1, leagueName := "LG", seasonStart := 1, seasonEnd := 1
     numberOfGames := 1, seasonYear? := some 7 }]

/-- C1 counterexample: with a duplicated team id inside one league, the pair
`(1, 1)` is scheduled and the same interval is inserted twice into team 1's
Conflict Index, so the stored intervals of that resource overlap. -/
theorem C1_counterexample :
    noOverlapInvB teamsC1 venuesC1
      (Scheduler.run teamsC1 venuesC1 leaguesC1) = false := by
  decide

/-- C3 counterexample: for the team list `[2, 1, 3]` (input order) with
`G = 2`, the sequence of matchups the run attempts is
`(2,1), (2,3), (1,3)` (first-appearance order of `itertools.combinations`),
which as unordered pairs differs from the spec's ascending-sorted sequence
`(1,2), (1,3), (2,3)` at the second position. -/
theorem C3_counterexample :
    ((Scheduler.run teamsC3 venuesC3 leaguesC3).events.filterMap
        initPairOf).map normPair ≠
      (specGamePairs [2, 1, 3] 2).map normPair := by
  decide

/-- C4 counterexample: league 1's two unscheduled pairs are retried by the
verification loop once for league 1 and again for league 2; the second
retry succeeds (the backfill resolves team 5's wide league-2 row) and both
games are attributed to league 2, whose required total is only 1. -/
theorem C4_counterexample :
    specCapacityBound teamsC4 leaguesC4
      (Scheduler.run teamsC4 venuesC4 leaguesC4) = false := by
  decide

/-- C5 counterexample: during league 1's iteration the verification loop
already runs backfill retries for league 2 (whose initial pass has not yet
happened), and those retries use league 1's pair `(1, 2)`, which is not a
pair of league 2's teams; league 2's initial-pass attempt occurs after
those backfill attempts. -/
theorem C5_counterexample :
    specC5holds teamsC5 leaguesC5
      (Scheduler.run teamsC5 venuesC5 leaguesC5) = false := by
  decide

/-- C6 counterexample: the games backfilled during league 1's iteration on
behalf of league 2 are searched over league 1's season window (week 1) but
attributed to league 2, whose season window is weeks 10-10. -/
theorem C6_counterexample :
    specSeasonWindow leaguesC4
      (Scheduler.run teamsC4 venuesC4 leaguesC4) = false := by
  decide

/-- C7 counterexample: with venue-fields listed as `(2,1)` then `(1,1)`,
both passing, the run commits venue `(2,1)` (input order), while the
ascending `(venue identifier, field number)` order prescribed by the spec
would pick venue `(1,1)`. -/
theorem C7_counterexample :
    ((Scheduler.run teamsC7 venuesC7 leaguesC7).games.map
        fun g => (g.venue_name, g.week, g.day, g.start)) =
      [("VB Field #1", 1, 1, 16)] ∧
    (specAscVenueFirst initState.venueTrees venuesC7 1 1 16).map
        (fun v => v.name) = some "VA" := by
  constructor
  · decide
  · decide

/-- C8: for an intersected window `[ds, de)` of at least 2 hours (4 half
units), the enumerated candidate starts are exactly the values `s` with
`ds ≤ s` and `s + 4 ≤ de`, in strictly ascending order.  (In this
embedding every `Int` start is half-hour-aligned by construction.) -/
theorem C8_candidate_starts (ds de : Int) (h : 4 ≤ de - ds) :
    (∀ s : Int, s ∈ potentialStarts ds de ↔ ds ≤ s ∧ s + 4 ≤ de) ∧
    (potentialStarts ds de).Sorted (· < ·) := by
  constructor
  · intro s
    simp only [potentialStarts, List.mem_map, List.mem_range]
    constructor
    · rintro ⟨k, hk, rfl⟩
      omega
    · rintro ⟨h1, h2⟩
      exact ⟨(s - ds).toNat, by omega, by omega⟩
  · unfold potentialStarts
    rw [List.Sorted, List.pairwise_map]
    exact (List.pairwise_lt_range _).imp fun hab => by omega

/-- C8 witness: the window `[8.0, 16.0)` (units `[16, 32)`) admits the
candidate `9.0` (unit `18`), and its candidate list is sorted. -/
theorem C8_candidate_starts_witness :
    (4 ≤ (32 : Int) - 16) ∧
    (((18 : Int) ∈ potentialStarts 16 32 ↔
        (16 : Int) ≤ 18 ∧ (18 : Int) + 4 ≤ 32) ∧
      (potentialStarts 16 32).Sorted (· < ·)) :=
  ⟨by decide,
    ⟨(C8_candidate_starts 16 32 (by decide)).1 18,
      (C8_candidate_starts 16 32 (by decide)).2⟩⟩

/-- C9: on readable input the run returns exit code 0 and writes the
(possibly partial) schedule; when reading one of the input files fails it
returns exit code 1 and produces no schedule output. -/
theorem C9_exit_status (teams : List Team) (venues : List Venue)
    (leagues : List League) :
    Scheduler.runFromRead (some (teams, venues, leagues)) =
      (0, some (Scheduler.run teams venues leagues)) ∧
    Scheduler.runFromRead none = (1, none) :=
  ⟨rfl, rfl⟩

/-! Helper lemmas for the pairing-order claim (C3). -/

/-- Filtering a list every element of which is above `a` through the
pair-forming guard keeps every element. -/
theorem filterMap_pairs_of_lt (a : Nat) (l : List Nat) (h : ∀ b ∈ l, a < b) :
    (l.filterMap fun b => if a < b then some (a, b) else none) =
      l.map fun b => (a, b) := by
  induction l with
  | nil => rfl
  | cons c cs ih =>
    rw [List.filterMap_cons, if_pos (h c (List.mem_cons_self c cs)),
      List.map_cons, ih fun b hb => h b (List.mem_cons_of_mem c hb)]

/-- On a strictly sorted id list, `itertools.combinations` enumerates
exactly the spec's ascending pair order. -/
theorem combos_sorted_eq (ids : List Nat) (h : List.Sorted (· < ·) ids) :
    combos ids =
      ids.flatMap fun a => ids.filterMap fun b =>
        if a < b then some (a, b) else none := by
  induction ids with
  | nil => rfl
  | cons x xs ih =>
    rw [List.sorted_cons] at h
    obtain ⟨hx, hs⟩ := h
    rw [List.flatMap_cons, combos, List.filterMap_cons, if_neg (lt_irrefl x),
      filterMap_pairs_of_lt x xs hx]
    have hcongr :
        (xs.map fun a => (x :: xs).filterMap fun b =>
            if a < b then some (a, b) else none) =
          xs.map fun a => xs.filterMap fun b =>
            if a < b then some (a, b) else none := by
      apply List.map_congr_left
      intro a ha
      rw [List.filterMap_cons, if_neg (not_lt_of_gt (hx a ha))]
    rw [List.flatMap, hcongr, ← List.flatMap, ih hs]

/-- C3 (amended): when the league's team-id list is strictly ascending
(hence duplicate-free), the pair sequence the run attempts —
`gamePairsOf`, built from `itertools.combinations` in input order — equals
the spec's sequence built from the deduplicated, ascending-sorted pairs. -/
theorem C3_sorted_pairing (ids : List Nat) (g : Nat)
    (h : List.Sorted (· < ·) ids) :
    gamePairsOf ids g = specGamePairs ids g := by
  have hnd : ids.Nodup := h.nodup
  have hle : List.Sorted (· ≤ ·) ids := h.imp le_of_lt
  simp only [gamePairsOf, specGamePairs, specAllPairs, hnd.dedup,
    hle.insertionSort_eq, combos_sorted_eq ids h]

/-- C3 witness: the theorem applied to the sorted id list `[1, 2, 3]`. -/
theorem C3_sorted_pairing_witness :
    List.Sorted (· < ·) [1, 2, 3] ∧
      gamePairsOf [1, 2, 3] 2 = specGamePairs [1, 2, 3] 2 :=
  ⟨by decide, C3_sorted_pairing [1, 2, 3] 2 (by decide)⟩

/-! The first-fit structure of a successful slot search, shared by several
claims below. -/

/-- What a successful `searchSlot` guarantees: the committed week lies in
the searched window, both teams' Conflict Indices reported no overlap at
the committed slot, and the committed venue is the result of the venue scan
at that slot. -/
theorem searchSlot_checks (tt : Nat → IntervalTree)
    (vt : Nat × Nat → IntervalTree) (venues : List Venue) (t1 t2 : Team)
    (t1id t2id : Nat) (a b : Int) (w : Int) (d : Nat) (s : Int) (v : Venue)
    (h : searchSlot tt vt venues t1 t2 t1id t2id a b = some (w, d, s, v)) :
    w ∈ intRange a b ∧
    (tt t1id).overlap ⟨s, s + 4, d, w⟩ = false ∧
    (tt t2id).overlap ⟨s, s + 4, d, w⟩ = false ∧
    findVenueSlot vt venues w d s = some v := by
  unfold searchSlot at h
  obtain ⟨week, hweek, h2⟩ := List.exists_of_findSome?_eq_some h
  obtain ⟨day, hday, h3⟩ := List.exists_of_findSome?_eq_some h2
  split at h3
  · exact absurd h3 (by simp)
  · obtain ⟨start, hstart, h4⟩ := List.exists_of_findSome?_eq_some h3
    split at h4
    · exact absurd h4 (by simp)
    · next hteams =>
      rw [Option.map_eq_some'] at h4
      obtain ⟨u, hu, hequ⟩ := h4
      simp only [Prod.mk.injEq] at hequ
      obtain ⟨rfl, rfl, rfl, rfl⟩ := hequ
      rw [Bool.or_eq_true, not_or, Bool.not_eq_true, Bool.not_eq_true]
        at hteams
      exact ⟨hweek, hteams.1, hteams.2, hu⟩

/-- C7 (amended): when a candidate `(week, day, start)` survives both
teams' overlap checks, the venue-fields are examined in *input-file row
order* (not ascending `(venueId, field)` order), and the committed venue is
the first one in that order whose availability window contains the
candidate interval and whose Conflict Index reports no overlap. -/
theorem C7_input_order_venue (tt : Nat → IntervalTree)
    (vt : Nat × Nat → IntervalTree) (venues : List Venue) (t1 t2 : Team)
    (t1id t2id : Nat) (a b : Int) (w : Int) (d : Nat) (s : Int) (v : Venue)
    (h : searchSlot tt vt venues t1 t2 t1id t2id a b = some (w, d, s, v)) :
    findVenueSlot vt venues w d s = some v ∧
      venuePasses vt v w d s = true := by
  have hc := searchSlot_checks tt vt venues t1 t2 t1id t2id a b w d s v h
  have hv := hc.2.2.2
  rw [findVenueSlot] at hv
  have hp := @List.find?_some Venue (fun u => venuePasses vt u w d s) v venues hv
  exact ⟨hc.2.2.2, hp⟩

/-- C7 witness: the theorem applied to the two-venue input, where the
search commits `(2, 1)` — the first row — at week 1, day 1, start `16`. -/
theorem C7_input_order_venue_witness :
    findVenueSlot initState.venueTrees venuesC7 1 1 16 = some venueB7 ∧
      venuePasses initState.venueTrees venueB7 1 1 16 = true :=
  C7_input_order_venue initState.teamTrees initState.venueTrees venuesC7
    teamA7 teamB7 1 2 1 1 1 1 16 venueB7 (by rfl)

/-! Invariant machinery: pairwise non-overlap of every Conflict Index and
distinctness of the two participants of every scheduled game. -/

/-- Pairwise non-overlap of a booked set, as a proposition. -/
def PNO (t : List Interval) : Prop := t.Pairwise fun i j => ¬ overlapP i j

/-- The no-overlap invariant over all resources, plus distinct participants
of every accumulated game. -/
def StOK (st : SchedState) : Prop :=
  ((∀ tid, PNO (st.teamTrees tid)) ∧ ∀ k, PNO (st.venueTrees k)) ∧
    ∀ g ∈ st.games, g.team1Id ≠ g.team2Id

instance : Membership Interval IntervalTree :=
  inferInstanceAs (Membership Interval (List Interval))

/-- A negative `overlap` answer means no stored interval conflicts. -/
theorem overlap_false_iff (t : IntervalTree) (i : Interval) :
    t.overlap i = false ↔ ∀ j ∈ t, ¬ overlapP i j := by
  simp [IntervalTree.overlap, List.any_eq_false]

/-- `overlapP` is symmetric. -/
theorem overlapP_comm (i j : Interval) : overlapP i j ↔ overlapP j i := by
  unfold overlapP
  constructor
  · rintro ⟨a, b, c, d⟩; exact ⟨a.symm, b.symm, d, c⟩
  · rintro ⟨a, b, c, d⟩; exact ⟨a.symm, b.symm, d, c⟩

/-- Inserting an interval that the tree reported as non-overlapping
preserves pairwise non-overlap. -/
theorem PNO_insert (t : IntervalTree) (i : Interval) (hp : PNO t)
    (ho : t.overlap i = false) : PNO (t.insert i) := by
  rw [IntervalTree.insert]
  rw [PNO, List.pairwise_cons]
  exact ⟨fun j hj => (overlap_false_iff t i).1 ho j hj, hp⟩

/-- Reading an updated family at another key. -/
theorem upd_ne {α β : Type} [DecidableEq α] (f : α → β) (k x : α) (v : β)
    (h : x ≠ k) : upd f k v x = f x := by
  simp [upd, h]

/-- Reading an updated family at the written key. -/
theorem upd_eq {α β : Type} [DecidableEq α] (f : α → β) (k : α) (v : β) :
    upd f k v k = v := by
  simp [upd]

/-- A passing venue's Conflict Index reported no overlap. -/
theorem venuePasses_overlap (vt : Nat × Nat → IntervalTree) (v : Venue)
    (w : Int) (d : Nat) (s : Int) (h : venuePasses vt v w d s = true) :
    (vt (v.venueId, v.field)).overlap ⟨s, s + 4, d, w⟩ = false := by
  rw [venuePasses, Bool.and_eq_true] at h
  have := h.2
  simp only [Bool.not_eq_true'] at this
  exact this

/-- Committing a game whose slot passed all three overlap checks preserves
the invariant, provided the two participants are distinct. -/
theorem commitGame_OK (st : SchedState) (t1id t2id : Nat) (t1n t2n : String)
    (week : Int) (day : Nat) (s : Int) (yr : Int) (lname : String)
    (v : Venue) (hok : StOK st) (hne : t1id ≠ t2id)
    (h1 : (st.teamTrees t1id).overlap ⟨s, s + 4, day, week⟩ = false)
    (h2 : (st.teamTrees t2id).overlap ⟨s, s + 4, day, week⟩ = false)
    (hv : (st.venueTrees (v.venueId, v.field)).overlap
      ⟨s, s + 4, day, week⟩ = false) :
    StOK (commitGame st t1id t2id t1n t2n week day s yr lname v) := by
  obtain ⟨⟨htt, hvt⟩, hg⟩ := hok
  refine ⟨⟨?_, ?_⟩, ?_⟩
  · intro tid
    show PNO (upd (upd st.teamTrees t1id ((st.teamTrees t1id).insert _)) t2id
      ((upd st.teamTrees t1id ((st.teamTrees t1id).insert _) t2id).insert _) tid)
    by_cases ht2 : tid = t2id
    · subst ht2
      rw [upd_eq, upd_ne st.teamTrees t1id tid _ (fun hx => hne hx.symm)]
      exact PNO_insert _ _ (htt tid) h2
    · rw [upd_ne _ _ _ _ ht2]
      by_cases ht1 : tid = t1id
      · subst ht1
        rw [upd_eq]
        exact PNO_insert _ _ (htt tid) h1
      · rw [upd_ne _ _ _ _ ht1]
        exact htt tid
  · intro k
    show PNO (upd st.venueTrees (v.venueId, v.field)
      ((st.venueTrees (v.venueId, v.field)).insert _) k)
    by_cases hk : k = (v.venueId, v.field)
    · rw [hk, upd_eq]
      exact PNO_insert _ _ (hvt _) hv
    · rw [upd_ne _ _ _ _ hk]
      exact hvt k
  · intro g hgmem
    rcases List.mem_append.1 hgmem with hold | hnew
    · exact hg g hold
    · rw [List.mem_singleton] at hnew
      subst hnew
      exact hne

/-- One attempt preserves the invariant whenever its pair is distinct. -/
theorem attemptPair_OK (st : SchedState) (venues : List Venue)
    (lookup : Nat → Option Team) (names : Nat → String) (t1id t2id : Nat)
    (a b yr : Int) (lname : String) (ev : Event) (hok : StOK st)
    (hne : t1id ≠ t2id) :
    StOK (attemptPair st venues lookup names t1id t2id a b yr lname ev).1 := by
  have hok1 : StOK { st with events := st.events ++ [ev] } := hok
  rw [attemptPair]
  split
  · next t1 t2 _ _ =>
    split
    · next w d s v hsearch =>
      have hc := searchSlot_checks _ _ venues t1 t2 t1id t2id a b w d s v
        hsearch
      have hfv := hc.2.2.2
      rw [findVenueSlot] at hfv
      have hp := @List.find?_some Venue (fun u => venuePasses _ u w d s) v
        venues hfv
      exact commitGame_OK _ t1id t2id _ _ w d s yr lname v hok1 hne
        hc.2.1 hc.2.2.1 (venuePasses_overlap _ v w d s hp)
    · exact hok1
  · exact hok1

/-- The initial pass preserves the invariant when all its pairs are
distinct. -/
theorem initialPass_OK (venues : List Venue) (lookup : Nat → Option Team)
    (names : Nat → String) (lid : Nat) (a b yr : Int) (lname : String)
    (pairs : List (Nat × Nat)) (st : SchedState) (hok : StOK st)
    (hpairs : ∀ p ∈ pairs, p.1 ≠ p.2) :
    StOK (initialPass venues lookup names lid a b yr lname st pairs).1 := by
  induction pairs generalizing st with
  | nil => exact hok
  | cons p rest ih =>
    rw [initialPass]
    exact ih _ (attemptPair_OK st venues lookup names p.1 p.2 a b yr lname _
        hok (hpairs p (List.mem_cons_self p rest)))
      fun q hq => hpairs q (List.mem_cons_of_mem p hq)

/-- The pairs reported unscheduled by the initial pass all come from its
input pair list. -/
theorem initialPass_unscheduled_sub (venues : List Venue)
    (lookup : Nat → Option Team) (names : Nat → String) (lid : Nat)
    (a b yr : Int) (lname : String) (pairs : List (Nat × Nat))
    (st : SchedState) :
    ∀ p ∈ (initialPass venues lookup names lid a b yr lname st pairs).2,
      p ∈ pairs := by
  induction pairs generalizing st with
  | nil => intro p hp; exact absurd hp (List.not_mem_nil p)
  | cons q rest ih =>
    intro p hp
    simp only [initialPass] at hp
    split at hp
    · exact List.mem_cons_of_mem q (ih _ p hp)
    · rcases List.mem_cons.1 hp with rfl | hmem
      · exact List.mem_cons_self p rest
      · exact List.mem_cons_of_mem q (ih _ p hmem)

/-- The backfill retry loop preserves the invariant when its pairs are
distinct. -/
theorem backfillPairs_OK (teams : List Team) (venues : List Venue)
    (names : Nat → String) (olid clid : Nat) (a b yr : Int) (cname : String)
    (pairs : List (Nat × Nat)) (st : SchedState) (hok : StOK st)
    (hpairs : ∀ p ∈ pairs, p.1 ≠ p.2) :
    StOK (backfillPairs teams venues names olid clid a b yr cname st pairs) := by
  induction pairs generalizing st with
  | nil => exact hok
  | cons p rest ih =>
    rw [backfillPairs]
    exact ih _ (attemptPair_OK st venues _ names p.1 p.2 a b yr cname _ hok
        (hpairs p (List.mem_cons_self p rest)))
      fun q hq => hpairs q (List.mem_cons_of_mem p hq)

/-- The verification loop preserves the invariant when the outer league's
unscheduled pairs are distinct. -/
theorem verificationLoop_OK (teams : List Team) (venues : List Venue)
    (l : League) (teamIds : List Nat) (names : Nat → String) (yr : Int)
    (unscheduled : List (Nat × Nat)) (ms : List League) (st : SchedState)
    (hok : StOK st) (hpairs : ∀ p ∈ unscheduled, p.1 ≠ p.2) :
    StOK (verificationLoop teams venues l teamIds names yr unscheduled st ms) := by
  induction ms generalizing st with
  | nil => exact hok
  | cons m rest ih =>
    simp only [verificationLoop]
    split
    · exact ih _ (backfillPairs_OK teams venues names l.leagueId m.leagueId
        l.seasonStart l.seasonEnd yr m.leagueName _ st hok
        fun p hp => hpairs p (List.mem_of_mem_filter hp))
    · exact ih _ hok

/-- Every pair produced by `combos` over a duplicate-free list has distinct
components. -/
theorem combos_mem_ne (ids : List Nat) (hnd : ids.Nodup) (p : Nat × Nat)
    (hp : p ∈ combos ids) : p.1 ≠ p.2 := by
  induction ids with
  | nil => exact absurd hp (List.not_mem_nil p)
  | cons x xs ih =>
    rw [List.nodup_cons] at hnd
    rcases List.mem_append.1 hp with hmap | hrec
    · obtain ⟨y, hy, rfl⟩ := List.mem_map.1 hmap
      intro hxy
      have hxy' : x = y := hxy
      subst hxy'
      exact hnd.1 hy
    · exact ih hnd.2 hrec

/-- Every attempted pair comes from `combos`. -/
theorem gamePairsOf_sub_combos (ids : List Nat) (g : Nat) (p : Nat × Nat)
    (hp : p ∈ gamePairsOf ids g) : p ∈ combos ids := by
  rw [gamePairsOf] at hp
  rcases List.mem_append.1 hp with hrep | htake
  · obtain ⟨q, hq, hpq⟩ := List.mem_flatMap.1 hrep
    exact (List.eq_of_mem_replicate hpq) ▸ hq
  · exact List.mem_of_mem_take htake

/-- Processing one league preserves the invariant when that league's team
ids are duplicate-free. -/
theorem processLeague_OK (teams : List Team) (venues : List Venue)
    (leagues : List League) (l : League) (st : SchedState) (hok : StOK st)
    (hnd : (teamIdsOfLeague teams l.leagueId).Nodup) :
    StOK (processLeague teams venues leagues st l) := by
  rw [processLeague]
  split
  · exact hok
  · next yr _ =>
    dsimp only
    split
    · exact hok
    · split
      · exact hok
      · have hpairs : ∀ p ∈ gamePairsOf (teamIdsOfLeague teams l.leagueId)
            l.numberOfGames, p.1 ≠ p.2 :=
          fun p hp => combos_mem_ne _ hnd p (gamePairsOf_sub_combos _ _ p hp)
        exact verificationLoop_OK teams venues l _ _ yr _ leagues _
          (initialPass_OK venues _ _ l.leagueId l.seasonStart l.seasonEnd yr
            l.leagueName _ st hok hpairs)
          fun p hp => hpairs p
            (initialPass_unscheduled_sub venues _ _ l.leagueId l.seasonStart
              l.seasonEnd yr l.leagueName _ st p hp)

/-- Folding the league list preserves the invariant. -/
theorem foldl_processLeague_OK (teams : List Team) (venues : List Venue)
    (leagues : List League) (ls : List League) (st : SchedState)
    (hok : StOK st)
    (h : ∀ lg ∈ ls, (teamIdsOfLeague teams lg.leagueId).Nodup) :
    StOK (ls.foldl (processLeague teams venues leagues) st) := by
  induction ls generalizing st with
  | nil => exact hok
  | cons l rest ih =>
    exact ih _ (processLeague_OK teams venues leagues l st hok
        (h l (List.mem_cons_self l rest)))
      fun lg hm => h lg (List.mem_cons_of_mem l hm)

/-- The boolean pairwise-non-overlap check agrees with `PNO`. -/
theorem pnoB_iff (t : List Interval) : pnoB t = true ↔ PNO t := by
  induction t with
  | nil => simp [pnoB, PNO]
  | cons i rest ih =>
    rw [pnoB, Bool.and_eq_true, List.all_eq_true, PNO, List.pairwise_cons]
    constructor
    · rintro ⟨ha, hb⟩
      refine ⟨fun j hj => ?_, ih.1 hb⟩
      have := ha j hj
      simp only [Bool.not_eq_true', decide_eq_false_iff_not] at this
      exact this
    · rintro ⟨ha, hb⟩
      refine ⟨fun j hj => ?_, ih.2 hb⟩
      simp only [Bool.not_eq_true', decide_eq_false_iff_not]
      exact ha j hj

/-- C1 (amended): for every input whose team identifiers are duplicate-free
within each league, the run maintains the no-overlap invariant: at the end,
every team's and every venue-field's Conflict Index holds pairwise
non-overlapping intervals.  (With a duplicated id inside a league the code
schedules a team against itself and inserts the same interval twice into
one Conflict Index, as the counterexample shows.) -/
theorem C1_no_overlap (teams : List Team) (venues : List Venue)
    (leagues : List League)
    (h : ∀ lg ∈ leagues, (teamIdsOfLeague teams lg.leagueId).Nodup) :
    noOverlapInvB teams venues (Scheduler.run teams venues leagues) = true := by
  have hok : StOK (Scheduler.run teams venues leagues) :=
    foldl_processLeague_OK teams venues leagues leagues initState
      ⟨⟨fun _ => List.Pairwise.nil, fun _ => List.Pairwise.nil⟩,
        fun g hg => absurd hg (List.not_mem_nil g)⟩ h
  rw [noOverlapInvB, Bool.and_eq_true, List.all_eq_true, List.all_eq_true]
  exact ⟨fun tid _ => (pnoB_iff _).2 (hok.1.1 tid),
    fun v _ => (pnoB_iff _).2 (hok.1.2 (v.venueId, v.field))⟩

/-- C1 witness: the amended invariant holds on the Scenario A input. -/
theorem C1_no_overlap_witness :
    (∀ lg ∈ leaguesA, (teamIdsOfLeague teamsA lg.leagueId).Nodup) ∧
      noOverlapInvB teamsA venuesA
        (Scheduler.run teamsA venuesA leaguesA) = true :=
  ⟨by decide, C1_no_overlap teamsA venuesA leaguesA (by decide)⟩

/-- C10: when team identifiers are pairwise distinct within each league,
every scheduled game pairs two distinct team identifiers. -/
theorem C10_distinct_participants (teams : List Team) (venues : List Venue)
    (leagues : List League)
    (h : ∀ lg ∈ leagues, (teamIdsOfLeague teams lg.leagueId).Nodup) :
    (Scheduler.run teams venues leagues).games.all
      (fun g => g.team1Id != g.team2Id) = true := by
  have hok : StOK (Scheduler.run teams venues leagues) :=
    foldl_processLeague_OK teams venues leagues leagues initState
      ⟨⟨fun _ => List.Pairwise.nil, fun _ => List.Pairwise.nil⟩,
        fun g hg => absurd hg (List.not_mem_nil g)⟩ h
  rw [List.all_eq_true]
  intro g hg
  exact bne_iff_ne.2 (hok.2 g hg)

/-- C10 witness: distinct participants on the Scenario A input. -/
theorem C10_distinct_participants_witness :
    (∀ lg ∈ leaguesA, (teamIdsOfLeague teamsA lg.leagueId).Nodup) ∧
      (Scheduler.run teamsA venuesA leaguesA).games.all
        (fun g => g.team1Id != g.team2Id) = true :=
  ⟨by decide, C10_distinct_participants teamsA venuesA leaguesA (by decide)⟩

/-! Monotonicity: Conflict Indices only grow during a run, and a failed
search stays failed in any larger state.  This is the key fact behind the
backfill pass: every backfill retry searches the same windows with at least
as many bookings, so it can never succeed where the initial pass failed. -/

/-- Growth order between scheduler states: every booked interval of every
resource stays booked. -/
def StateLE (st st' : SchedState) : Prop :=
  (∀ tid, ∀ i ∈ st.teamTrees tid, i ∈ st'.teamTrees tid) ∧
    ∀ k, ∀ i ∈ st.venueTrees k, i ∈ st'.venueTrees k

/-- `StateLE` is reflexive. -/
theorem StateLE_refl (st : SchedState) : StateLE st st :=
  ⟨fun _ _ hi => hi, fun _ _ hi => hi⟩

/-- `StateLE` is transitive. -/
theorem StateLE_trans {a b c : SchedState} (h1 : StateLE a b)
    (h2 : StateLE b c) : StateLE a c :=
  ⟨fun tid i hi => h2.1 tid i (h1.1 tid i hi),
    fun k i hi => h2.2 k i (h1.2 k i hi)⟩

/-- A non-overlap answer in a larger booked set holds in any smaller one. -/
theorem overlap_mono_false (t t' : IntervalTree) (hsub : ∀ i ∈ t, i ∈ t')
    (i : Interval) (h : t'.overlap i = false) : t.overlap i = false := by
  rw [overlap_false_iff] at h ⊢
  exact fun j hj => h j (hsub j hj)

/-- A venue that passes in a larger state also passes in a smaller one. -/
theorem venuePasses_mono (vt vt' : Nat × Nat → IntervalTree)
    (hsub : ∀ k, ∀ i ∈ vt k, i ∈ vt' k) (v : Venue) (w : Int) (d : Nat)
    (s : Int) (h : venuePasses vt' v w d s = true) :
    venuePasses vt v w d s = true := by
  rw [venuePasses, Bool.and_eq_true] at h ⊢
  refine ⟨h.1, ?_⟩
  have h2 := h.2
  rw [Bool.not_eq_true'] at h2 ⊢
  exact overlap_mono_false _ _ (hsub (v.venueId, v.field)) _ h2

/-- A failed slot search stays failed after more bookings are committed:
the searched windows and venue catalogue are unchanged and every rejection
reason is monotone in the booked sets. -/
theorem searchSlot_none_mono (tt tt' : Nat → IntervalTree)
    (vt vt' : Nat × Nat → IntervalTree)
    (hT : ∀ tid, ∀ i ∈ tt tid, i ∈ tt' tid)
    (hV : ∀ k, ∀ i ∈ vt k, i ∈ vt' k)
    (venues : List Venue) (t1 t2 : Team) (t1id t2id : Nat) (a b : Int)
    (h : searchSlot tt vt venues t1 t2 t1id t2id a b = none) :
    searchSlot tt' vt' venues t1 t2 t1id t2id a b = none := by
  rw [searchSlot, List.findSome?_eq_none_iff] at h ⊢
  intro w hw
  have hweek := h w hw
  rw [List.findSome?_eq_none_iff] at hweek ⊢
  intro d hd
  have hday := hweek d hd
  split at hday
  · next hguard => rw [if_pos hguard]
  · next hguard =>
    rw [if_neg hguard]
    rw [List.findSome?_eq_none_iff] at hday ⊢
    intro s hs
    have hcand := hday s hs
    by_cases hbig : ((tt' t1id).overlap ⟨s, s + 4, d, w⟩ ||
        (tt' t2id).overlap ⟨s, s + 4, d, w⟩) = true
    · rw [if_pos hbig]
    · rw [if_neg hbig]
      rw [Bool.or_eq_true, not_or, Bool.not_eq_true, Bool.not_eq_true] at hbig
      have hs1 : (tt t1id).overlap ⟨s, s + 4, d, w⟩ = false :=
        overlap_mono_false _ _ (hT t1id) _ hbig.1
      have hs2 : (tt t2id).overlap ⟨s, s + 4, d, w⟩ = false :=
        overlap_mono_false _ _ (hT t2id) _ hbig.2
      rw [if_neg (by rw [hs1, hs2]; simp)] at hcand
      rw [Option.map_eq_none'] at hcand ⊢
      rw [findVenueSlot, List.find?_eq_none] at hcand ⊢
      intro v hv hpass
      exact hcand v hv (venuePasses_mono vt vt' hV v w d s hpass)

/-- Weeks enumerated by the season loop lie inside the season window. -/
theorem intRange_bounds (a b w : Int) (h : w ∈ intRange a b) :
    a ≤ w ∧ w ≤ b := by
  rw [intRange] at h
  simp only [List.mem_map, List.mem_range] at h
  obtain ⟨k, hk, rfl⟩ := h
  omega

/-- Committing a game only adds bookings. -/
theorem commitGame_le (st : SchedState) (t1id t2id : Nat) (t1n t2n : String)
    (w : Int) (d : Nat) (s : Int) (yr : Int) (lname : String) (v : Venue) :
    StateLE st (commitGame st t1id t2id t1n t2n w d s yr lname v) := by
  constructor
  · intro tid i hi
    show i ∈ upd (upd st.teamTrees t1id _) t2id _ tid
    by_cases h2 : tid = t2id
    · rw [h2] at hi
      rw [h2, upd_eq]
      apply List.mem_cons_of_mem
      by_cases h1 : t2id = t1id
      · rw [h1] at hi
        rw [h1, upd_eq]
        exact List.mem_cons_of_mem _ hi
      · rw [upd_ne _ _ _ _ h1]
        exact hi
    · rw [upd_ne _ _ _ _ h2]
      by_cases h1 : tid = t1id
      · rw [h1] at hi
        rw [h1, upd_eq]
        exact List.mem_cons_of_mem _ hi
      · rw [upd_ne _ _ _ _ h1]
        exact hi
  · intro k i hi
    show i ∈ upd st.venueTrees (v.venueId, v.field) _ k
    by_cases hk : k = (v.venueId, v.field)
    · rw [hk] at hi
      rw [hk, upd_eq]
      exact List.mem_cons_of_mem _ hi
    · rw [upd_ne _ _ _ _ hk]
      exact hi

/-- Exact case analysis of one attempt: either the search succeeded and the
result is the committed state, or it failed (also when a team row is
missing) and only the event was recorded. -/
theorem attemptPair_cases (st : SchedState) (venues : List Venue)
    (lookup : Nat → Option Team) (names : Nat → String) (t1id t2id : Nat)
    (a b yr : Int) (lname : String) (ev : Event) :
    (∃ t1 t2 w d s v, lookup t1id = some t1 ∧ lookup t2id = some t2 ∧
      searchSlot st.teamTrees st.venueTrees venues t1 t2 t1id t2id a b =
        some (w, d, s, v) ∧
      attemptPair st venues lookup names t1id t2id a b yr lname ev =
        (commitGame { st with events := st.events ++ [ev] } t1id t2id
          (names t1id) (names t2id) w d s yr lname v, true)) ∨
    (attemptPair st venues lookup names t1id t2id a b yr lname ev =
        ({ st with events := st.events ++ [ev] }, false) ∧
      ∀ t1 t2, lookup t1id = some t1 → lookup t2id = some t2 →
        searchSlot st.teamTrees st.venueTrees venues t1 t2 t1id t2id a b =
          none) := by
  cases hl1 : lookup t1id with
  | none =>
    right
    refine ⟨by simp [attemptPair, hl1], fun t1 t2 h1 h2 => ?_⟩
    exact absurd h1 (by simp)
  | some t1 =>
    cases hl2 : lookup t2id with
    | none =>
      right
      refine ⟨by simp [attemptPair, hl1, hl2], fun u1 u2 h1 h2 => ?_⟩
      exact absurd h2 (by simp)
    | some t2 =>
      cases hs : searchSlot st.teamTrees st.venueTrees venues t1 t2 t1id
          t2id a b with
      | none =>
        right
        refine ⟨by simp [attemptPair, hl1, hl2, hs], fun u1 u2 h1 h2 => ?_⟩
        cases h1
        cases h2
        exact hs
      | some r =>
        obtain ⟨w, d, s, v⟩ := r
        left
        exact ⟨t1, t2, w, d, s, v, rfl, rfl, hs,
          by simp [attemptPair, hl1, hl2, hs]⟩

/-- One attempt only adds bookings. -/
theorem attemptPair_le (st : SchedState) (venues : List Venue)
    (lookup : Nat → Option Team) (names : Nat → String) (t1id t2id : Nat)
    (a b yr : Int) (lname : String) (ev : Event) :
    StateLE st (attemptPair st venues lookup names t1id t2id a b yr lname
      ev).1 := by
  rcases attemptPair_cases st venues lookup names t1id t2id a b yr lname ev
    with ⟨t1, t2, w, d, s, v, _, _, _, heq⟩ | ⟨heq, _⟩
  · rw [heq]
    exact commitGame_le { st with events := st.events ++ [ev] } t1id t2id
      (names t1id) (names t2id) w d s yr lname v
  · rw [heq]
    exact StateLE_refl st

/-- A failed attempt leaves trees and games untouched. -/
theorem attemptPair_frozen (st : SchedState) (venues : List Venue)
    (lookup : Nat → Option Team) (names : Nat → String) (t1id t2id : Nat)
    (a b yr : Int) (lname : String) (ev : Event)
    (hfail : ∀ t1 t2, lookup t1id = some t1 → lookup t2id = some t2 →
      searchSlot st.teamTrees st.venueTrees venues t1 t2 t1id t2id a b =
        none) :
    (attemptPair st venues lookup names t1id t2id a b yr lname ev).1.teamTrees
        = st.teamTrees ∧
    (attemptPair st venues lookup names t1id t2id a b yr lname
      ev).1.venueTrees = st.venueTrees ∧
    (attemptPair st venues lookup names t1id t2id a b yr lname ev).1.games
        = st.games := by
  rcases attemptPair_cases st venues lookup names t1id t2id a b yr lname ev
    with ⟨t1, t2, w, d, s, v, hl1, hl2, hs, heq⟩ | ⟨heq, _⟩
  · rw [hfail t1 t2 hl1 hl2] at hs
    exact absurd hs (by simp)
  · rw [heq]
    exact ⟨rfl, rfl, rfl⟩

/-- The game record appended by `commitGame`. -/
theorem commitGame_games (st : SchedState) (t1id t2id : Nat)
    (t1n t2n : String) (w : Int) (d : Nat) (s : Int) (yr : Int)
    (lname : String) (v : Venue) :
    (commitGame st t1id t2id t1n t2n w d s yr lname v).games =
      st.games ++
        [{ team1Id := t1id, team2Id := t2id, team1Name := t1n,
           team2Name := t2n, week := w, day := d, season := yr, start := s,
           stop := s + 4, league := lname,
           venue_name := v.name ++ " Field #" ++ toString v.field }] := rfl

/-- What one initial pass guarantees: bookings only grow; the games it
appends are attributed to its league with weeks inside its season window,
and games appended plus pairs left unscheduled account for every input
pair; and every unscheduled pair's search fails *at the final state* (by
monotonicity, failures persist as later pairs commit bookings). -/
theorem initialPass_spec (venues : List Venue) (lookup : Nat → Option Team)
    (names : Nat → String) (lid : Nat) (a b yr : Int) (lname : String)
    (pairs : List (Nat × Nat)) (st : SchedState) :
    StateLE st (initialPass venues lookup names lid a b yr lname st pairs).1 ∧
    (∃ gs, (initialPass venues lookup names lid a b yr lname st
        pairs).1.games = st.games ++ gs ∧
      gs.length +
        (initialPass venues lookup names lid a b yr lname st pairs).2.length
          = pairs.length ∧
      ∀ g ∈ gs, g.league = lname ∧ a ≤ g.week ∧ g.week ≤ b) ∧
    ∀ p ∈ (initialPass venues lookup names lid a b yr lname st pairs).2,
      ∀ t1 t2, lookup p.1 = some t1 → lookup p.2 = some t2 →
        searchSlot
          (initialPass venues lookup names lid a b yr lname st
            pairs).1.teamTrees
          (initialPass venues lookup names lid a b yr lname st
            pairs).1.venueTrees
          venues t1 t2 p.1 p.2 a b = none := by
  induction pairs generalizing st with
  | nil =>
    refine ⟨StateLE_refl st, ⟨[], by simp [initialPass], by simp [initialPass],
      by simp⟩, ?_⟩
    intro p hp
    simp [initialPass] at hp
  | cons p rest ih =>
    rcases attemptPair_cases st venues lookup names p.1 p.2 a b yr lname
        (Event.attempt lid p.1 p.2) with
      ⟨t1, t2, w, d, s, v, hl1, hl2, hs, heq⟩ | ⟨heq, hfail⟩
    · obtain ⟨ihle, ⟨gs, hg, hlen, hprops⟩, ihpost⟩ :=
        ih (commitGame { st with events := st.events ++
          [Event.attempt lid p.1 p.2] } p.1 p.2 (names p.1) (names p.2)
          w d s yr lname v)
      have hwb : a ≤ w ∧ w ≤ b :=
        intRange_bounds a b w
          (searchSlot_checks _ _ venues t1 t2 p.1 p.2 a b w d s v hs).1
      simp only [initialPass, heq, if_true, if_false, Bool.false_eq_true,
        eq_self_iff_true]
      refine ⟨StateLE_trans ?_ ihle, ?_, ?_⟩
      · exact commitGame_le { st with events := st.events ++
          [Event.attempt lid p.1 p.2] } p.1 p.2 (names p.1) (names p.2)
          w d s yr lname v
      · refine ⟨{ team1Id := p.1, team2Id := p.2, team1Name := names p.1,
                  team2Name := names p.2, week := w, day := d, season := yr,
                  start := s, stop := s + 4, league := lname,
                  venue_name := v.name ++ " Field #" ++ toString v.field }
            :: gs, ?_, ?_, ?_⟩
        · rw [hg, commitGame_games, List.append_assoc, List.singleton_append]
        · simp only [List.length_cons]
          omega
        · intro g hgmem
          rcases List.mem_cons.1 hgmem with rfl | hmem
          · exact ⟨rfl, hwb.1, hwb.2⟩
          · exact hprops g hmem
      · exact ihpost
    · obtain ⟨ihle, ⟨gs, hg, hlen, hprops⟩, ihpost⟩ :=
        ih { st with events := st.events ++ [Event.attempt lid p.1 p.2] }
      simp only [initialPass, heq, if_true, if_false, Bool.false_eq_true,
        eq_self_iff_true]
      refine ⟨ihle, ⟨gs, hg, ?_, hprops⟩, ?_⟩
      · simp only [List.length_cons]
        omega
      · intro q hq
        rcases List.mem_cons.1 hq with rfl | hmem
        · intro u1 u2 h1 h2
          exact searchSlot_none_mono st.teamTrees _ st.venueTrees _
            ihle.1 ihle.2 venues u1 u2 q.1 q.2 a b (hfail u1 u2 h1 h2)
        · exact ihpost q hmem

/-- When every pair's search fails at the current state, the backfill loop
changes no trees and schedules no games (it only records events). -/
theorem backfillPairs_frozen (teams : List Team) (venues : List Venue)
    (names : Nat → String) (olid clid : Nat) (a b yr : Int) (cname : String)
    (pairs : List (Nat × Nat)) (st : SchedState)
    (hfail : ∀ p ∈ pairs, ∀ t1 t2,
      (teams.find? fun t => t.teamId == p.1) = some t1 →
      (teams.find? fun t => t.teamId == p.2) = some t2 →
      searchSlot st.teamTrees st.venueTrees venues t1 t2 p.1 p.2 a b =
        none) :
    (backfillPairs teams venues names olid clid a b yr cname st
        pairs).teamTrees = st.teamTrees ∧
    (backfillPairs teams venues names olid clid a b yr cname st
        pairs).venueTrees = st.venueTrees ∧
    (backfillPairs teams venues names olid clid a b yr cname st
        pairs).games = st.games := by
  induction pairs generalizing st with
  | nil => exact ⟨rfl, rfl, rfl⟩
  | cons p rest ih =>
    have hA := attemptPair_frozen st venues
      (fun tid => teams.find? fun t => t.teamId == tid) names p.1 p.2 a b yr
      cname (Event.backfillAttempt olid clid p.1 p.2 a b)
      (hfail p (List.mem_cons_self p rest))
    simp only [backfillPairs]
    have hrest := ih
      (attemptPair st venues (fun tid => teams.find? fun t => t.teamId == tid)
        names p.1 p.2 a b yr cname
        (Event.backfillAttempt olid clid p.1 p.2 a b)).1
      (by
        rw [hA.1, hA.2.1]
        exact fun q hq => hfail q (List.mem_cons_of_mem p hq))
    rw [hrest.1, hrest.2.1, hrest.2.2, hA.1, hA.2.1, hA.2.2]
    exact ⟨rfl, rfl, rfl⟩

/-- When every unscheduled pair's search over the outer league's window
fails at the current state, the whole verification loop changes no trees
and schedules no games. -/
theorem verificationLoop_frozen (teams : List Team) (venues : List Venue)
    (l : League) (teamIds : List Nat) (names : Nat → String) (yr : Int)
    (unscheduled : List (Nat × Nat)) (ms : List League) (st : SchedState)
    (hfail : ∀ p ∈ unscheduled, ∀ t1 t2,
      (teams.find? fun t => t.teamId == p.1) = some t1 →
      (teams.find? fun t => t.teamId == p.2) = some t2 →
      searchSlot st.teamTrees st.venueTrees venues t1 t2 p.1 p.2
        l.seasonStart l.seasonEnd = none) :
    (verificationLoop teams venues l teamIds names yr unscheduled st
        ms).teamTrees = st.teamTrees ∧
    (verificationLoop teams venues l teamIds names yr unscheduled st
        ms).venueTrees = st.venueTrees ∧
    (verificationLoop teams venues l teamIds names yr unscheduled st
        ms).games = st.games := by
  induction ms generalizing st with
  | nil => exact ⟨rfl, rfl, rfl⟩
  | cons m rest ih =>
    simp only [verificationLoop]
    split
    · have hB := backfillPairs_frozen teams venues names l.leagueId
        m.leagueId l.seasonStart l.seasonEnd yr m.leagueName
        (unscheduled.filter fun p =>
          teamIds.contains p.1 && teamIds.contains p.2) st
        (fun q hq => hfail q (List.mem_of_mem_filter hq))
      have hrest := ih
        (backfillPairs teams venues names l.leagueId m.leagueId l.seasonStart
          l.seasonEnd yr m.leagueName st
          (unscheduled.filter fun p =>
            teamIds.contains p.1 && teamIds.contains p.2))
        (by
          rw [hB.1, hB.2.1]
          exact hfail)
      rw [hrest.1, hrest.2.1, hrest.2.2, hB.1, hB.2.1, hB.2.2]
      exact ⟨rfl, rfl, rfl⟩
    · exact ih st hfail

/-- Both components of a `combos` pair come from the id list. -/
theorem combos_mem_components (ids : List Nat) (p : Nat × Nat)
    (hp : p ∈ combos ids) : p.1 ∈ ids ∧ p.2 ∈ ids := by
  induction ids with
  | nil => exact absurd hp (List.not_mem_nil p)
  | cons x xs ih =>
    rcases List.mem_append.1 hp with hmap | hrec
    · obtain ⟨y, hy, rfl⟩ := List.mem_map.1 hmap
      exact ⟨List.mem_cons_self x xs, List.mem_cons_of_mem x hy⟩
    · obtain ⟨h1, h2⟩ := ih hrec
      exact ⟨List.mem_cons_of_mem x h1, List.mem_cons_of_mem x h2⟩

/-- `find?` by a key hits exactly the unique element with that key when
keys are duplicate-free. -/
theorem find?_key_eq {β : Type} (l : List β) (key : β → Nat)
    (hnd : (l.map key).Nodup) (x : β) (hx : x ∈ l) :
    l.find? (fun u => key u == key x) = some x := by
  induction l with
  | nil => exact absurd hx (List.not_mem_nil x)
  | cons u us ih =>
    rw [List.map_cons, List.nodup_cons] at hnd
    by_cases hb : (key u == key x) = true
    · rw [@List.find?_cons_of_pos β (fun u => key u == key x) u us hb]
      rcases List.mem_cons.1 hx with rfl | hus
      · rfl
      · have hku : key u = key x := by simpa using hb
        exact absurd (hku ▸ List.mem_map_of_mem key hus) hnd.1
    · rw [@List.find?_cons_of_neg β (fun u => key u == key x) u us hb]
      rcases List.mem_cons.1 hx with rfl | hus
      · exact absurd (by simp) hb
      · exact ih hnd.2 hus

/-- Under globally duplicate-free team ids, the league-filtered row lookup
of the initial pass and the whole-table row lookup of the backfill agree. -/
theorem leagueLookup_to_global (teams : List Team) (lid tid : Nat)
    (hnd : (teams.map fun t => t.teamId).Nodup) (t : Team)
    (hl : ((teams.filter fun u => u.leagueId == lid).find? fun u =>
      u.teamId == tid) = some t) :
    (teams.find? fun u => u.teamId == tid) = some t := by
  have hmem : t ∈ teams :=
    List.mem_of_mem_filter (List.mem_of_find?_eq_some hl)
  have hbeq := List.find?_some hl
  have htid : t.teamId = tid := by simpa using hbeq
  have hkey := find?_key_eq teams (fun u => u.teamId) hnd t hmem
  dsimp only at hkey
  rw [htid] at hkey
  exact hkey

/-- A league-member id always resolves to a league-filtered row. -/
theorem league_find_exists (teams : List Team) (lid tid : Nat)
    (h : tid ∈ teamIdsOfLeague teams lid) :
    ∃ u, ((teams.filter fun t => t.leagueId == lid).find? fun t =>
      t.teamId == tid) = some u ∧ u.teamId = tid := by
  rw [teamIdsOfLeague] at h
  obtain ⟨u0, hu0, rfl⟩ := List.mem_map.1 h
  have hsome : ((teams.filter fun t => t.leagueId == lid).find? fun t =>
      t.teamId == u0.teamId).isSome := by
    rw [List.find?_isSome]
    exact ⟨u0, hu0, by simp⟩
  obtain ⟨u, hu⟩ := Option.isSome_iff_exists.1 hsome
  refine ⟨u, hu, ?_⟩
  have hbeq := List.find?_some hu
  simpa using hbeq

/-- Length of emitting `n` copies of every element. -/
theorem length_flatMap_replicate {α : Type} (l : List α) (n : Nat) :
    (l.flatMap fun p => List.replicate n p).length = l.length * n := by
  induction l with
  | nil => simp
  | cons x xs ih =>
    rw [List.flatMap_cons, List.length_append, List.length_replicate, ih,
      List.length_cons, Nat.succ_mul]
    omega

/-- A league with at least one pair attempts exactly `requiredTotal`
instances. -/
theorem gamePairsOf_length (ids : List Nat) (g : Nat)
    (h : (combos ids).length ≠ 0) :
    (gamePairsOf ids g).length = requiredTotal g ids.length := by
  have hpos : 0 < (combos ids).length := Nat.pos_of_ne_zero h
  have hmod : requiredTotal g ids.length % (combos ids).length <
      (combos ids).length := Nat.mod_lt _ hpos
  have hdm := Nat.div_add_mod (requiredTotal g ids.length) (combos ids).length
  simp only [gamePairsOf, List.length_append, length_flatMap_replicate,
    List.length_take]
  omega

/-- Under globally duplicate-free team ids, processing one league appends
only games attributed to that league, with weeks inside its season window,
and at most `requiredTotal` of them: the initial pass appends at most one
game per attempted pair, and by monotonicity the nested verification loop
(whose retries re-search the same windows with more bookings and, thanks to
unique ids, the same team rows) schedules nothing. -/
theorem processLeague_games (teams : List Team) (venues : List Venue)
    (leagues : List League) (l : League) (st : SchedState)
    (hnd : (teams.map fun t => t.teamId).Nodup) :
    ∃ gs, (processLeague teams venues leagues st l).games = st.games ++ gs ∧
      gs.length ≤ requiredTotal l.numberOfGames
        (teams.filter fun t => t.leagueId == l.leagueId).length ∧
      ∀ g ∈ gs, g.league = l.leagueName ∧ l.seasonStart ≤ g.week ∧
        g.week ≤ l.seasonEnd := by
  rw [processLeague]
  split
  · exact ⟨[], by simp, by simp, by simp⟩
  · next yr heq =>
    dsimp only
    split
    · exact ⟨[], by simp, by simp, by simp⟩
    · split
      · exact ⟨[], by simp, by simp, by simp⟩
      · next hne =>
        obtain ⟨hle, ⟨gs, hg, hlen, hprops⟩, hpost⟩ :=
          initialPass_spec venues
            (fun tid => (teams.filter fun t => t.leagueId == l.leagueId).find?
              fun t => t.teamId == tid)
            (teamNameOf (teams.filter fun t => t.leagueId == l.leagueId))
            l.leagueId l.seasonStart l.seasonEnd yr l.leagueName
            (gamePairsOf ((teams.filter fun t => t.leagueId ==
              l.leagueId).map fun t => t.teamId) l.numberOfGames) st
        have hfail : ∀ p ∈ (initialPass venues
            (fun tid => (teams.filter fun t => t.leagueId == l.leagueId).find?
              fun t => t.teamId == tid)
            (teamNameOf (teams.filter fun t => t.leagueId == l.leagueId))
            l.leagueId l.seasonStart l.seasonEnd yr l.leagueName st
            (gamePairsOf ((teams.filter fun t => t.leagueId ==
              l.leagueId).map fun t => t.teamId) l.numberOfGames)).2,
            ∀ t1 t2,
            (teams.find? fun t => t.teamId == p.1) = some t1 →
            (teams.find? fun t => t.teamId == p.2) = some t2 →
            searchSlot (initialPass venues
              (fun tid => (teams.filter fun t => t.leagueId ==
                l.leagueId).find? fun t => t.teamId == tid)
              (teamNameOf (teams.filter fun t => t.leagueId == l.leagueId))
              l.leagueId l.seasonStart l.seasonEnd yr l.leagueName st
              (gamePairsOf ((teams.filter fun t => t.leagueId ==
                l.leagueId).map fun t => t.teamId)
                l.numberOfGames)).1.teamTrees
              (initialPass venues
                (fun tid => (teams.filter fun t => t.leagueId ==
                  l.leagueId).find? fun t => t.teamId == tid)
                (teamNameOf (teams.filter fun t => t.leagueId == l.leagueId))
                l.leagueId l.seasonStart l.seasonEnd yr l.leagueName st
                (gamePairsOf ((teams.filter fun t => t.leagueId ==
                  l.leagueId).map fun t => t.teamId)
                  l.numberOfGames)).1.venueTrees
              venues t1 t2 p.1 p.2 l.seasonStart l.seasonEnd = none := by
          intro p hp t1 t2 hg1 hg2
          have hpc := gamePairsOf_sub_combos _ _ p
            (initialPass_unscheduled_sub venues _ _ l.leagueId l.seasonStart
              l.seasonEnd yr l.leagueName _ st p hp)
          have hc := combos_mem_components _ p hpc
          obtain ⟨u1, hu1, _⟩ := league_find_exists teams l.leagueId p.1 hc.1
          obtain ⟨u2, hu2, _⟩ := league_find_exists teams l.leagueId p.2 hc.2
          have hgu1 := leagueLookup_to_global teams l.leagueId p.1 hnd u1 hu1
          have hgu2 := leagueLookup_to_global teams l.leagueId p.2 hnd u2 hu2
          have ht1 : u1 = t1 := Option.some.inj (hgu1.symm.trans hg1)
          have ht2 : u2 = t2 := Option.some.inj (hgu2.symm.trans hg2)
          subst ht1
          subst ht2
          exact hpost p hp u1 u2 hu1 hu2
        have hfrozen := verificationLoop_frozen teams venues l
          ((teams.filter fun t => t.leagueId == l.leagueId).map
            fun t => t.teamId)
          (teamNameOf (teams.filter fun t => t.leagueId == l.leagueId)) yr
          (initialPass venues
            (fun tid => (teams.filter fun t => t.leagueId == l.leagueId).find?
              fun t => t.teamId == tid)
            (teamNameOf (teams.filter fun t => t.leagueId == l.leagueId))
            l.leagueId l.seasonStart l.seasonEnd yr l.leagueName st
            (gamePairsOf ((teams.filter fun t => t.leagueId ==
              l.leagueId).map fun t => t.teamId) l.numberOfGames)).2 leagues
          (initialPass venues
            (fun tid => (teams.filter fun t => t.leagueId == l.leagueId).find?
              fun t => t.teamId == tid)
            (teamNameOf (teams.filter fun t => t.leagueId == l.leagueId))
            l.leagueId l.seasonStart l.seasonEnd yr l.leagueName st
            (gamePairsOf ((teams.filter fun t => t.leagueId ==
              l.leagueId).map fun t => t.teamId) l.numberOfGames)).1 hfail
        refine ⟨gs, ?_, ?_, fun g hgm => hprops g hgm⟩
        · rw [hfrozen.2.2, hg]
        · have hlen2 := gamePairsOf_length ((teams.filter fun t =>
            t.leagueId == l.leagueId).map fun t => t.teamId) l.numberOfGames
            hne
          rw [List.length_map] at hlen2
          omega

/-- With duplicate-free league names, name-filtering the league list at a
member's name yields exactly that league. -/
theorem leagues_filter_name (leagues : List League) (lg : League)
    (hn : (leagues.map fun m => m.leagueName).Nodup) (hlg : lg ∈ leagues) :
    (leagues.filter fun m => m.leagueName == lg.leagueName) = [lg] := by
  induction leagues with
  | nil => exact absurd hlg (List.not_mem_nil lg)
  | cons h rest ih =>
    rw [List.map_cons, List.nodup_cons] at hn
    rcases List.mem_cons.1 hlg with rfl | hmem
    · have h0 : (rest.filter fun m => m.leagueName == lg.leagueName) = [] := by
        rw [List.filter_eq_nil_iff]
        intro m hm hbeq
        have hmn : m.leagueName = lg.leagueName := by simpa using hbeq
        apply hn.1
        rw [← hmn]
        exact List.mem_map_of_mem _ hm
      rw [@List.filter_cons_of_pos League (fun m => m.leagueName == lg.leagueName) lg rest (by simp), h0]
    · have hne : ¬(h.leagueName == lg.leagueName) = true := by
        intro hbeq
        have hmn : h.leagueName = lg.leagueName := by simpa using hbeq
        apply hn.1
        rw [hmn]
        exact List.mem_map_of_mem _ hmem
      rw [@List.filter_cons_of_neg League (fun m => m.leagueName == lg.leagueName) h rest hne]
      exact ih hn.2 hmem

/-- Folding the league list: games attributed to a name are bounded by the
accumulated `requiredTotal` of the leagues bearing that name. -/
theorem foldl_count_le (teams : List Team) (venues : List Venue)
    (leagues : List League) (hnd : (teams.map fun t => t.teamId).Nodup)
    (ls : List League) (st : SchedState) (nm : String) :
    ((ls.foldl (processLeague teams venues leagues) st).games.filter
      (fun g => g.league == nm)).length ≤
    (st.games.filter fun g => g.league == nm).length +
      ((ls.filter fun m => m.leagueName == nm).map fun m =>
        requiredTotal m.numberOfGames
          (teams.filter fun t => t.leagueId == m.leagueId).length).sum := by
  induction ls generalizing st with
  | nil => simp
  | cons l rest ih =>
    rw [List.foldl_cons]
    obtain ⟨gs, hgeq, hlen, hprops⟩ :=
      processLeague_games teams venues leagues l st hnd
    have hstep := ih (processLeague teams venues leagues st l)
    rw [hgeq, List.filter_append, List.length_append] at hstep
    by_cases hname : (l.leagueName == nm) = true
    · rw [@List.filter_cons_of_pos League (fun m => m.leagueName == nm) l rest hname, List.map_cons, List.sum_cons]
      have hgs : (gs.filter fun g => g.league == nm).length ≤
          requiredTotal l.numberOfGames
            (teams.filter fun t => t.leagueId == l.leagueId).length :=
        le_trans (List.length_filter_le _ gs) hlen
      omega
    · have hgs0 : (gs.filter fun g => g.league == nm) = [] := by
        rw [List.filter_eq_nil_iff]
        intro g hgm hbeq
        rw [(hprops g hgm).1] at hbeq
        exact hname hbeq
      rw [hgs0, List.length_nil] at hstep
      rw [@List.filter_cons_of_neg League (fun m => m.leagueName == nm) l rest hname]
      omega

/-- C4 (amended): for inputs with globally duplicate-free team identifiers
and duplicate-free league names, the number of games attributed to each
league is at most its `requiredTotal`.  (With a team id shared across
leagues, the backfill resolves a different row than the initial pass did,
can schedule the outer league's leftover pairs on behalf of *other* short
leagues, and pushes those leagues above their required totals, as the
counterexample shows.) -/
theorem C4_capacity (teams : List Team) (venues : List Venue)
    (leagues : List League)
    (hids : (teams.map fun t => t.teamId).Nodup)
    (hnames : (leagues.map fun m => m.leagueName).Nodup) :
    specCapacityBound teams leagues (Scheduler.run teams venues leagues) =
      true := by
  rw [specCapacityBound, List.all_eq_true]
  intro lg hlg
  rw [decide_eq_true_eq, Scheduler.run]
  have hcount := foldl_count_le teams venues leagues hids leagues initState
    lg.leagueName
  rw [leagues_filter_name leagues lg hnames hlg] at hcount
  simpa [initState] using hcount

/-- C4 witness: the amended bound on the Scenario A input. -/
theorem C4_capacity_witness :
    ((teamsA.map fun t => t.teamId).Nodup ∧
      (leaguesA.map fun m => m.leagueName).Nodup) ∧
    specCapacityBound teamsA leaguesA
      (Scheduler.run teamsA venuesA leaguesA) = true :=
  ⟨⟨by decide, by decide⟩,
    C4_capacity teamsA venuesA leaguesA (by decide) (by decide)⟩

/-- Provenance of every game of a run: it was appended while processing
some league of the list, carries that league's name, and its week lies in
that league's season window. -/
theorem foldl_games_window (teams : List Team) (venues : List Venue)
    (leagues : List League) (hnd : (teams.map fun t => t.teamId).Nodup)
    (ls : List League) (st : SchedState) :
    ∀ g ∈ (ls.foldl (processLeague teams venues leagues) st).games,
      g ∈ st.games ∨ ∃ m, m ∈ ls ∧ g.league = m.leagueName ∧
        m.seasonStart ≤ g.week ∧ g.week ≤ m.seasonEnd := by
  induction ls generalizing st with
  | nil => exact fun g hg => Or.inl hg
  | cons l rest ih =>
    intro g hg
    rw [List.foldl_cons] at hg
    rcases ih (processLeague teams venues leagues st l) g hg with
      hmem | ⟨m, hm, hprops⟩
    · obtain ⟨gs, hgeq, _, hprops2⟩ :=
        processLeague_games teams venues leagues l st hnd
      rw [hgeq] at hmem
      rcases List.mem_append.1 hmem with h1 | h2
      · exact Or.inl h1
      · exact Or.inr ⟨l, List.mem_cons_self l rest, hprops2 g h2⟩
    · exact Or.inr ⟨m, List.mem_cons_of_mem l hm, hprops⟩

/-- C6 (amended): for inputs with globally duplicate-free team identifiers
and duplicate-free league names, every scheduled game's week lies within
the season window of the league it is attributed to.  (With a team id
shared across leagues, backfilled games are searched over the outer
league's window but attributed to the checked league, and can fall outside
the latter's window, as the counterexample shows.) -/
theorem C6_season_window (teams : List Team) (venues : List Venue)
    (leagues : List League)
    (hids : (teams.map fun t => t.teamId).Nodup)
    (hnames : (leagues.map fun m => m.leagueName).Nodup) :
    specSeasonWindow leagues (Scheduler.run teams venues leagues) = true := by
  rw [specSeasonWindow, List.all_eq_true]
  intro g hg
  rw [List.all_eq_true]
  intro m hm
  rcases foldl_games_window teams venues leagues hids leagues initState g hg
    with habs | ⟨m2, hm2, hname, hw1, hw2⟩
  · exact absurd habs (List.not_mem_nil g)
  · by_cases hbeq : (m.leagueName == g.league) = true
    · have hmg : m.leagueName = g.league := by simpa using hbeq
      have hmm : m = m2 :=
        List.inj_on_of_nodup_map hnames hm hm2 (by rw [hmg, hname])
      simp only [hbeq, Bool.not_true, Bool.false_or, Bool.and_eq_true,
        decide_eq_true_eq]
      rw [hmm]
      exact ⟨hw1, hw2⟩
    · have hbe0 : (m.leagueName == g.league) = false := by
        simpa using hbeq
      simp [hbe0]

/-- C6 witness: the amended window invariant on the Scenario A input. -/
theorem C6_season_window_witness :
    ((teamsA.map fun t => t.teamId).Nodup ∧
      (leaguesA.map fun m => m.leagueName).Nodup) ∧
    specSeasonWindow leaguesA
      (Scheduler.run teamsA venuesA leaguesA) = true :=
  ⟨⟨by decide, by decide⟩,
    C6_season_window teamsA venuesA leaguesA (by decide) (by decide)⟩

/-- One attempt records exactly its event. -/
theorem attemptPair_events (st : SchedState) (venues : List Venue)
    (lookup : Nat → Option Team) (names : Nat → String) (t1id t2id : Nat)
    (a b yr : Int) (lname : String) (ev : Event) :
    (attemptPair st venues lookup names t1id t2id a b yr lname ev).1.events =
      st.events ++ [ev] := by
  rcases attemptPair_cases st venues lookup names t1id t2id a b yr lname ev
    with ⟨t1, t2, w, d, s, v, _, _, _, heq⟩ | ⟨heq, _⟩
  · rw [heq]
    rfl
  · rw [heq]

/-- The backfill loop records one backfill event per retried pair. -/
theorem backfillPairs_events (teams : List Team) (venues : List Venue)
    (names : Nat → String) (olid clid : Nat) (a b yr : Int) (cname : String)
    (pairs : List (Nat × Nat)) (st : SchedState) :
    (backfillPairs teams venues names olid clid a b yr cname st
        pairs).events =
      st.events ++ pairs.map (fun p =>
        Event.backfillAttempt olid clid p.1 p.2 a b) := by
  induction pairs generalizing st with
  | nil => simp [backfillPairs]
  | cons p rest ih =>
    simp only [backfillPairs]
    rw [ih, attemptPair_events, List.map_cons, List.append_assoc,
      List.singleton_append]

/-- Every event the verification loop adds is a backfill event for the
outer league: its outer id, the outer league's season horizon, and a pair
drawn from the outer league's team ids. -/
theorem verificationLoop_events (teams : List Team) (venues : List Venue)
    (l : League) (teamIds : List Nat) (names : Nat → String) (yr : Int)
    (unscheduled : List (Nat × Nat)) (ms : List League) (st : SchedState) :
    ∃ evs, (verificationLoop teams venues l teamIds names yr unscheduled st
        ms).events = st.events ++ evs ∧
      ∀ e ∈ evs, ∃ (c : Nat) (p : Nat × Nat),
        e = Event.backfillAttempt l.leagueId c p.1 p.2
          l.seasonStart l.seasonEnd ∧
        p.1 ∈ teamIds ∧ p.2 ∈ teamIds := by
  induction ms generalizing st with
  | nil =>
    refine ⟨[], by simp [verificationLoop], ?_⟩
    intro e he
    exact absurd he (List.not_mem_nil e)
  | cons m rest ih =>
    simp only [verificationLoop]
    split
    · obtain ⟨evs, hevs, hprop⟩ := ih
        (backfillPairs teams venues names l.leagueId m.leagueId l.seasonStart
          l.seasonEnd yr m.leagueName st
          (unscheduled.filter fun p =>
            teamIds.contains p.1 && teamIds.contains p.2))
      refine ⟨((unscheduled.filter fun p =>
          teamIds.contains p.1 && teamIds.contains p.2).map fun p =>
            Event.backfillAttempt l.leagueId m.leagueId p.1 p.2 l.seasonStart
              l.seasonEnd) ++ evs, ?_, ?_⟩
      · rw [hevs, backfillPairs_events, List.append_assoc]
      · intro e he
        rcases List.mem_append.1 he with hmap | hevs2
        · obtain ⟨p, hp, rfl⟩ := List.mem_map.1 hmap
          obtain ⟨hpmem, hpcond⟩ := List.mem_filter.1 hp
          rw [Bool.and_eq_true] at hpcond
          obtain ⟨x1, hx1, hb1⟩ :=
            List.contains_iff_exists_mem_beq.1 hpcond.1
          obtain ⟨x2, hx2, hb2⟩ :=
            List.contains_iff_exists_mem_beq.1 hpcond.2
          have e1 : p.1 = x1 := by simpa using hb1
          have e2 : p.2 = x2 := by simpa using hb2
          refine ⟨m.leagueId, p, rfl, ?_, ?_⟩
          · rw [e1]; exact hx1
          · rw [e2]; exact hx2
        · exact hprop e hevs2
    · exact ih st

/-- The initial pass records one initial-attempt event per pair. -/
theorem initialPass_events (venues : List Venue)
    (lookup : Nat → Option Team) (names : Nat → String) (lid : Nat)
    (a b yr : Int) (lname : String) (pairs : List (Nat × Nat))
    (st : SchedState) :
    (initialPass venues lookup names lid a b yr lname st pairs).1.events =
      st.events ++ pairs.map (fun p => Event.attempt lid p.1 p.2) := by
  induction pairs generalizing st with
  | nil => simp [initialPass]
  | cons p rest ih =>
    simp only [initialPass]
    rw [ih, attemptPair_events, List.map_cons, List.append_assoc,
      List.singleton_append]

/-- Every backfill event recorded while processing league `l` names `l` as
the outer league, searches `l`'s season horizon, and retries a pair of
`l`'s team ids. -/
theorem processLeague_events (teams : List Team) (venues : List Venue)
    (leagues : List League) (l : League) (st : SchedState) :
    ∃ evs, (processLeague teams venues leagues st l).events =
        st.events ++ evs ∧
      ∀ e ∈ evs, ∀ o c t1 t2 : Nat, ∀ s1 s2 : Int,
        e = Event.backfillAttempt o c t1 t2 s1 s2 →
        o = l.leagueId ∧ s1 = l.seasonStart ∧ s2 = l.seasonEnd ∧
          t1 ∈ teamIdsOfLeague teams l.leagueId ∧
          t2 ∈ teamIdsOfLeague teams l.leagueId := by
  rw [processLeague]
  split
  · refine ⟨[], by simp, ?_⟩
    intro e he
    exact absurd he (List.not_mem_nil e)
  · next yr heq =>
    dsimp only
    split
    · refine ⟨[], by simp, ?_⟩
      intro e he
      exact absurd he (List.not_mem_nil e)
    · split
      · refine ⟨[], by simp, ?_⟩
        intro e he
        exact absurd he (List.not_mem_nil e)
      · obtain ⟨evs, hevs, hprop⟩ := verificationLoop_events teams venues l
          ((teams.filter fun t => t.leagueId == l.leagueId).map
            fun t => t.teamId)
          (teamNameOf (teams.filter fun t => t.leagueId == l.leagueId)) yr
          ((initialPass venues
            (fun tid => (teams.filter fun t => t.leagueId == l.leagueId).find?
              fun t => t.teamId == tid)
            (teamNameOf (teams.filter fun t => t.leagueId == l.leagueId))
            l.leagueId l.seasonStart l.seasonEnd yr l.leagueName st
            (gamePairsOf ((teams.filter fun t => t.leagueId ==
              l.leagueId).map fun t => t.teamId) l.numberOfGames)).2)
          leagues
          ((initialPass venues
            (fun tid => (teams.filter fun t => t.leagueId == l.leagueId).find?
              fun t => t.teamId == tid)
            (teamNameOf (teams.filter fun t => t.leagueId == l.leagueId))
            l.leagueId l.seasonStart l.seasonEnd yr l.leagueName st
            (gamePairsOf ((teams.filter fun t => t.leagueId ==
              l.leagueId).map fun t => t.teamId) l.numberOfGames)).1)
        refine ⟨(gamePairsOf ((teams.filter fun t => t.leagueId ==
            l.leagueId).map fun t => t.teamId) l.numberOfGames).map
              (fun p => Event.attempt l.leagueId p.1 p.2) ++ evs, ?_, ?_⟩
        · rw [hevs, initialPass_events, List.append_assoc]
        · intro e he o c t1 t2 s1 s2 hesh
          rcases List.mem_append.1 he with hmap | hevs2
          · obtain ⟨p, _, rfl⟩ := List.mem_map.1 hmap
            exact absurd hesh (by simp)
          · obtain ⟨c2, p, hshape, hp1, hp2⟩ := hprop e hevs2
            rw [hshape] at hesh
            injection hesh with h1 h2 h3 h4 h5 h6
            exact ⟨h1.symm, h5.symm, h6.symm, h3 ▸ hp1, h4 ▸ hp2⟩

/-- Provenance of every event of a run: backfill events always belong to
some league of the input, as outer league. -/
theorem foldl_backfill_events (teams : List Team) (venues : List Venue)
    (leagues : List League) (ls : List League) (st : SchedState) :
    ∀ e ∈ (ls.foldl (processLeague teams venues leagues) st).events,
      e ∈ st.events ∨ ∃ lg, lg ∈ ls ∧
        ∀ o c t1 t2 : Nat, ∀ s1 s2 : Int,
          e = Event.backfillAttempt o c t1 t2 s1 s2 →
          o = lg.leagueId ∧ s1 = lg.seasonStart ∧ s2 = lg.seasonEnd ∧
            t1 ∈ teamIdsOfLeague teams lg.leagueId ∧
            t2 ∈ teamIdsOfLeague teams lg.leagueId := by
  induction ls generalizing st with
  | nil => exact fun e he => Or.inl he
  | cons l rest ih =>
    intro e he
    rw [List.foldl_cons] at he
    rcases ih (processLeague teams venues leagues st l) e he with
      hmem | ⟨lg, hlg, hprop⟩
    · obtain ⟨evs, hevs, hprop⟩ := processLeague_events teams venues leagues
        l st
      rw [hevs] at hmem
      rcases List.mem_append.1 hmem with h1 | h2
      · exact Or.inl h1
      · exact Or.inr ⟨l, List.mem_cons_self l rest, hprop e h2⟩
    · exact Or.inr ⟨lg, List.mem_cons_of_mem l hlg, hprop⟩

/-- C5 (amended): the verification loop is nested inside the outer league
loop, so backfill retries for a short league `c` run as soon as some outer
league `o`'s initial pass ends — not after all initial passes — and they
retry the *outer* league's unscheduled pairs over the *outer* league's
season horizon (attributing successes to `c`).  Formally: every backfill
event's pair consists of the outer league's team ids and its searched
window is the outer league's season window, where the outer league is the
unique league carrying the event's outer id. -/
theorem C5_backfill_scope (teams : List Team) (venues : List Venue)
    (leagues : List League)
    (hid : (leagues.map fun m => m.leagueId).Nodup)
    (o c t1 t2 : Nat) (s1 s2 : Int)
    (he : Event.backfillAttempt o c t1 t2 s1 s2 ∈
      (Scheduler.run teams venues leagues).events)
    (lg : League)
    (hfind : leagues.find? (fun m => m.leagueId == o) = some lg) :
    t1 ∈ teamIdsOfLeague teams lg.leagueId ∧
    t2 ∈ teamIdsOfLeague teams lg.leagueId ∧
    s1 = lg.seasonStart ∧ s2 = lg.seasonEnd := by
  rw [Scheduler.run] at he
  rcases foldl_backfill_events teams venues leagues leagues initState _ he
    with habs | ⟨lg2, hlg2, hprop⟩
  · exact absurd habs (List.not_mem_nil _)
  · obtain ⟨ho, hs1, hs2, ht1, ht2⟩ :=
      hprop o c t1 t2 s1 s2 rfl
    have hkey := find?_key_eq leagues (fun m => m.leagueId) hid lg2 hlg2
    dsimp only at hkey
    rw [← ho] at hkey
    rw [hfind] at hkey
    have hlg : lg = lg2 := Option.some.inj hkey
    rw [hlg]
    exact ⟨ht1, ht2, hs1, hs2⟩

/-- C5 witness: applied to the two-league input, for the backfill event
that league 1's verification loop records on behalf of league 2. -/
theorem C5_backfill_scope_witness :
    1 ∈ teamIdsOfLeague teamsC5 leagueC5A.leagueId ∧
    2 ∈ teamIdsOfLeague teamsC5 leagueC5A.leagueId ∧
    (1 : Int) = leagueC5A.seasonStart ∧ (1 : Int) = leagueC5A.seasonEnd :=
  C5_backfill_scope teamsC5 venuesC5 leaguesC5 (by decide) 1 2 1 2 1 1
    (by decide) leagueC5A (by decide)

end Sched
